import Mathlib

/-!
# Verification of the `react-native-sqlite-table` schema subsystem

Shallow embedding of the schema-reconciliation subsystem:
`SchemaRegistry.ensureMeta` (schema/SchemaRegistry.ts), `createTable`,
`rebuildPreserveData` (schema/rebuild.ts), `reconcileSchema` and
`migrateWithSteps` (schema/reconcile.ts), and the row-insertion pipeline
`validateRow` / `buildInsertStmt` (crud/insert.ts).

Modelling decisions, stated once here:

* SQL statements supplied by the caller (the `Stmt` batches of a `DDLOption`
  or a `MigrationStep`) are treated as opaque strings.  Their parameters are
  dropped and their effect on the physical table is not interpreted; they
  appear in an execution trace.  Executing such a batch is modelled as always
  succeeding at the reconcile level; inside the migration runner an explicit
  failure oracle (`Env`) decides which phase of which step throws, which is
  where the spec's failure claims live.
* The structured statements the library itself generates (CREATE TABLE of the
  managed table, the rebuild transaction, the registry upsert) are interpreted
  against an abstract database state holding the managed table's physical
  layout and the registry version for it.
* SQLite runtime constraint enforcement (NOT NULL / UNIQUE / CHECK violations
  during copies and inserts) is outside the model; `check` expressions are
  opaque strings, so they could not be interpreted anyway.  Rendering of
  DEFAULT literals is modelled faithfully, including the fact that
  `formatDefault` throws for a non-null default on a REAL column.
* `row_id` auto-increment assignment on a freshly created table is modelled as
  the sequence 1, 2, 3, … in insertion order, SQLite's behaviour for an empty
  AUTOINCREMENT table.
-/

namespace SQLTable

/-- A SQL statement, opaque to the model (parameters dropped). -/
abbrev Stmt := String

/-- Column types of the library (`ColumnType` in types.ts). -/
inductive ColumnType
  | text | integer | real | boolean | blob
deriving DecidableEq, Repr

/-- A JavaScript-level value as supplied by callers: row fields, declared
defaults.  `obj o` stands for a serialisable object whose JSON serialisation
is the string `o`. -/
inductive JsVal
  | null
  | str (s : String)
  | int (n : Int)
  | bool (b : Bool)
  | obj (o : String)
deriving DecidableEq, Repr

/-- A stored SQLite value in a table cell. -/
inductive SVal
  | sNull
  | sInt (n : Int)
  | sText (t : String)
deriving DecidableEq, Repr

/-- Normalised column specification (`ColumnSpecNorm` in types.ts).
`default = none` models the TS `default` field being `undefined`;
`some JsVal.null` models an explicit `default: null`. -/
structure ColumnSpec where
  type : ColumnType
  nullable : Bool
  default : Option JsVal
  unique : Bool
  check : Option String
deriving DecidableEq, Repr

/-- The declared columns of the table, in `Object.entries` order
(`ColumnMapNorm` in types.ts). -/
abbrev Columns := List (String × ColumnSpec)

/-- The reserved identity column name (`SQLITE_RESERVED_PRIMARY_KEY`). -/
def SQLITE_RESERVED_PRIMARY_KEY : String := "row_id"

/-- `formatDefault` (utils/dialect.ts) rendered into the stored value the
DEFAULT literal denotes.  `none` models the function throwing
(`Unsupported column type` — reached for a non-null default on a REAL
column) or a literal SQLite would reject.  A `null` default renders as
`NULL`; a BOOLEAN default renders `1`/`0` (an integer); a BLOB default is
stored as its quoted JSON serialisation. -/
def formatDefault (t : ColumnType) (d : JsVal) : Option SVal :=
  match d with
  | JsVal.null => some SVal.sNull
  | JsVal.int n =>
    match t with
    | ColumnType.integer => some (SVal.sInt n)
    | _ => none
  | JsVal.bool b =>
    match t with
    | ColumnType.boolean => some (SVal.sInt (if b then 1 else 0))
    | _ => none
  | JsVal.str s =>
    match t with
    | ColumnType.text => some (SVal.sText s)
    | _ => none
  | JsVal.obj o =>
    match t with
    | ColumnType.blob => some (SVal.sText o)
    | _ => none

/-- The stored value a column takes when an INSERT omits it: its rendered
DEFAULT if declared, otherwise NULL. -/
def defaultOrNull (spec : ColumnSpec) : SVal :=
  match spec.default with
  | none => SVal.sNull
  | some d => (formatDefault spec.type d).getD SVal.sNull

/-- Whether every declared DEFAULT of the column list renders without
throwing: `createTable` and `rebuildPreserveData` both build the full column
definition list eagerly, so a single bad default aborts them. -/
def renderOk (cols : Columns) : Bool :=
  cols.all fun kv =>
    match kv.2.default with
    | none => true
    | some d => (formatDefault kv.2.type d).isSome

/-! ## Registry meta bootstrap (`SchemaRegistry.ensureMeta`) -/

/-- Name of the registry's backing table (`REG_TABLE_NAME`). -/
def REG_TABLE_NAME : String := "__sp_schema"

/-- Name of the registry's supporting index on `version`. -/
def REG_INDEX_NAME : String := "__sp_schema_ver_idx"

/-- The store-level catalog `ensureMeta` touches: which tables and which
indexes exist.  SQLite keeps at most one object per name; states are
meaningful when the name lists are duplicate-free. -/
structure MetaState where
  tables : List String
  indexes : List String
deriving DecidableEq, Repr

/-- `CREATE TABLE IF NOT EXISTS name (...)` on the catalog. -/
def createTableIfNotExists (s : MetaState) (name : String) : MetaState :=
  if name ∈ s.tables then s else { s with tables := s.tables ++ [name] }

/-- `CREATE INDEX IF NOT EXISTS name ON ...` on the catalog. -/
def createIndexIfNotExists (s : MetaState) (name : String) : MetaState :=
  if name ∈ s.indexes then s else { s with indexes := s.indexes ++ [name] }

/-- `SchemaRegistry.ensureMeta` (SchemaRegistry.ts lines 14–30): one
transaction issuing `CREATE TABLE IF NOT EXISTS "__sp_schema" (...)` then
`CREATE INDEX IF NOT EXISTS "__sp_schema_ver_idx" ON "__sp_schema"(version)`. -/
def ensureMeta (s : MetaState) : MetaState :=
  createIndexIfNotExists (createTableIfNotExists s REG_TABLE_NAME) REG_INDEX_NAME

/-! ## Physical table model -/

/-- One stored row: column name to stored value, keyed by the physical
column names of its table. -/
abbrev Row := List (String × SVal)

/-- Value of column `c` in a row (NULL when the row does not bind it). -/
def rowVal (r : Row) (c : String) : SVal :=
  match r.find? (fun kv => kv.1 = c) with
  | some kv => kv.2
  | none => SVal.sNull

/-- The managed table's physical layout: ordered column names (as
`PRAGMA table_info` reports them) and the stored rows, in rowid order. -/
structure PhysTable where
  cols : List String
  rows : List Row
deriving DecidableEq, Repr

/-- Database state relevant to reconciliation of one managed table: its
physical layout (`none` = table absent) and the registry version recorded
for it (`getTableVersion` returns 0 when no registry row exists, so a plain
`Nat` with 0 = untracked is faithful). -/
structure DBState where
  phys : Option PhysTable
  regVer : Nat
deriving DecidableEq, Repr

/-- `SchemaRegistry.getExistingColumns` (SchemaRegistry.ts lines 50–53):
`PRAGMA table_info` yields the column names, or the empty list when the
table does not exist. -/
def getExistingColumns (st : DBState) : List String :=
  match st.phys with
  | none => []
  | some t => t.cols

/-- The copy-column list of `rebuildPreserveData` (rebuild.ts line 44):
`oldCols.filter(c => c !== SQLITE_RESERVED_PRIMARY_KEY && newCols.includes(c))`
— note that `includes` compares names case-SENSITIVELY. -/
def copyCols (oldCols : List String) (cols : Columns) : List String :=
  oldCols.filter fun c =>
    c ≠ SQLITE_RESERVED_PRIMARY_KEY && (cols.map Prod.fst).contains c

/-- One rebuilt row: `row_id` is freshly assigned (`i+1` for the `i`-th
copied row, SQLite auto-increment on the empty shadow table), each declared
column keeps the old value when it is in the copy list and otherwise takes
its DEFAULT or NULL. -/
def rebuiltRow (cols : Columns) (copy : List String) (i : Nat) (r : Row) : Row :=
  (SQLITE_RESERVED_PRIMARY_KEY, SVal.sInt (Int.ofNat (i + 1))) ::
    cols.map fun kv => (kv.1, if copy.contains kv.1 then rowVal r kv.1 else defaultOrNull kv.2)

/-- The rows the copy statement writes, in SELECT order, with `row_id`
counting up from `i + 1`. -/
def rebuiltRows (cols : Columns) (copy : List String) : Nat → List Row → List Row
  | _, [] => []
  | i, r :: rest => rebuiltRow cols copy i r :: rebuiltRows cols copy (i + 1) rest

/-- `rebuildPreserveData` (rebuild.ts lines 23–59) as a state transformer on
the physical table.  `none` models the promise rejecting: the column
definitions fail to render (`formatDefault` throws before the transaction
starts) or the table to drop does not exist (the transaction's `DROP TABLE`
fails and the whole transaction rolls back).  On success the table consists
of the reserved identity column followed by the declared columns; when the
copy list is empty the `INSERT INTO … SELECT` is skipped entirely, so the
rebuilt table has no rows. -/
def rebuildPreserveData (cols : Columns) (st : DBState) : Option DBState :=
  if renderOk cols = false then none
  else
    match st.phys with
    | none => none
    | some t =>
      let copy := copyCols t.cols cols
      let newRows : List Row :=
        if copy.isEmpty then [] else rebuiltRows cols copy 0 t.rows
      some { st with phys := some ⟨SQLITE_RESERVED_PRIMARY_KEY :: cols.map Prod.fst, newRows⟩ }

/-- `createTable` (schema/createTable.ts lines 6–29) as a state transformer.
The column definition list (including DEFAULT literals) is built eagerly, so
a non-renderable default throws (`none`) even when the table already exists;
otherwise the statement is `CREATE TABLE IF NOT EXISTS`, a no-op when the
table is present and otherwise creating `row_id INTEGER PRIMARY KEY
AUTOINCREMENT` followed by the declared columns, with no rows. -/
def createTable (cols : Columns) (st : DBState) : Option DBState :=
  if renderOk cols = false then none
  else
    match st.phys with
    | some _ => some st
    | none => some { st with phys := some ⟨SQLITE_RESERVED_PRIMARY_KEY :: cols.map Prod.fst, []⟩ }

/-- `SchemaRegistry.setTableVersion` (SchemaRegistry.ts lines 37–48): a blind
upsert of the registry row; it does not itself compare against the stored
version. -/
def setTableVersion (st : DBState) (v : Nat) : DBState :=
  { st with regVer := v }

/-! ## DDL plans, migration steps, execution traces -/

/-- What a custom migration procedure may do through its `MigrationCtx`
capability record (reconcile.ts lines 81–89, 145–156): single-statement
transactional execution, batch application with or without a transaction,
and rebuild-preserve.  `getExistingColumns` is a pure read and has no
observable effect.  Note the record deliberately does NOT expose
`setTableVersion`. -/
inductive CustomAct
  | runC (s : Stmt)
  | applyTxnC (b : List Stmt)
  | applyNoTxnC (b : List Stmt)
  | rebuildC
deriving DecidableEq, Repr

/-- `MigrationStep` (reconcile.ts lines 91–103).  The TS optional arrays are
modelled as lists with `[]` for `undefined` — the source only ever tests
`xs?.length`, which identifies the two.  A custom procedure is modelled as a
finite script of capability calls. -/
structure MigrationStep where
  «to» : Nat
  preNoTxn : List Stmt
  txn : List Stmt
  postNoTxn : List Stmt
  strategy : Option Bool  -- some true = 'rebuild', some false = 'alter'
  custom : Option (List CustomAct)
deriving DecidableEq, Repr

/-- `DDLOption` (types.ts lines 67–103), with the same `[]`-for-`undefined`
convention for the statement batches. -/
structure DDLOption where
  version : Nat
  beforeCreateNoTxn : List Stmt
  afterCreateTxn : List Stmt
  afterCreateNoTxn : List Stmt
  onEveryOpen : List Stmt
  migrationSteps : List MigrationStep
deriving DecidableEq, Repr

/-- The reconciliation-relevant part of `TableCtx`. -/
structure Ctx where
  columns : Columns
  ddl : Option DDLOption

/-- Actions inside one transaction. -/
inductive Act
  | sqlA (s : Stmt)
  | createA  -- the CREATE TABLE IF NOT EXISTS of the managed table
deriving DecidableEq, Repr

/-- Observable events of a reconciliation run.  `txnE acts` is ONE
transaction executing `acts` atomically (`runTxn` emits a singleton batch,
`runBatchTxn` the whole batch); `noTxnE s` is a single statement outside any
transaction (`runBatchNoTxn` emits one per statement); `rebuildE` is the
rebuild's own atomic transaction; `setVerE v` the registry upsert. -/
inductive Ev
  | noTxnE (s : Stmt)
  | txnE (acts : List Act)
  | rebuildE
  | setVerE (v : Nat)
deriving DecidableEq, Repr

/-- Result of running a (possibly failing) operation: resulting state, the
events that happened, and whether the operation completed without throwing. -/
structure Outcome where
  st : DBState
  tr : List Ev
  ok : Bool
deriving DecidableEq, Repr

/-- Sequencing with exception propagation: if `a` threw, `f` never runs. -/
def Outcome.seq (a : Outcome) (f : DBState → Outcome) : Outcome :=
  if a.ok then
    let b := f a.st
    ⟨b.st, a.tr ++ b.tr, b.ok⟩
  else a

/-- A successful no-op outcome. -/
def Outcome.pure (st : DBState) : Outcome := ⟨st, [], true⟩

/-- A thrown outcome (events already emitted are kept by `seq`). -/
def Outcome.throw (st : DBState) : Outcome := ⟨st, [], false⟩

/-- `runBatchNoTxn`: each statement runs on its own, outside a transaction. -/
def runBatchNoTxn (b : List Stmt) (st : DBState) : Outcome :=
  ⟨st, b.map Ev.noTxnE, true⟩

/-- `runBatchTxn`: the whole batch inside one transaction. -/
def runBatchTxn (b : List Stmt) (st : DBState) : Outcome :=
  ⟨st, [Ev.txnE (b.map Act.sqlA)], true⟩

/-- `runTxn` on a single statement: its own one-statement transaction. -/
def runTxnStmt (s : Stmt) (st : DBState) : Outcome :=
  ⟨st, [Ev.txnE [Act.sqlA s]], true⟩

/-- `createTable` as an operation: emits its one-statement transaction and
throws when the column definitions fail to render. -/
def createTableOp (cols : Columns) (st : DBState) : Outcome :=
  match createTable cols st with
  | none => Outcome.throw st
  | some st' => ⟨st', [Ev.txnE [Act.createA]], true⟩

/-- `rebuildPreserveData` as an operation. -/
def rebuildOp (cols : Columns) (st : DBState) : Outcome :=
  match rebuildPreserveData cols st with
  | none => Outcome.throw st
  | some st' => ⟨st', [Ev.rebuildE], true⟩

/-- `setTableVersion` as an operation. -/
def setVersionOp (v : Nat) (st : DBState) : Outcome :=
  ⟨setTableVersion st v, [Ev.setVerE v], true⟩

/-- Phases of a declared migration step. -/
inductive PhaseK
  | preP | rebP | txnP | custP | postP
deriving DecidableEq, Repr

/-- Failure oracle for the migration runner: `failsAt v k = true` means the
underlying driver throws while executing phase `k` of the step targeting
version `v`. -/
structure Env where
  failsAt : Nat → PhaseK → Bool

/-- The all-success oracle. -/
def envOk : Env := ⟨fun _ _ => false⟩

/-! ## Migration runner (`migrateWithSteps`) -/

/-- Step lookup (reconcile.ts lines 111–113): `new Map(steps.map(s => [s.to, s]))`
keeps the LAST entry for a duplicated `to`, so lookup finds the last
declared step targeting `v`. -/
def stepFor (steps : List MigrationStep) (v : Nat) : Option MigrationStep :=
  steps.reverse.find? fun s => s.«to» == v

/-- One capability call of a custom migration procedure. -/
def runCustomAct (cols : Columns) (a : CustomAct) (st : DBState) : Outcome :=
  match a with
  | CustomAct.runC s => runTxnStmt s st
  | CustomAct.applyTxnC b => runBatchTxn b st
  | CustomAct.applyNoTxnC b => runBatchNoTxn b st
  | CustomAct.rebuildC => rebuildOp cols st

/-- A custom procedure as a sequence of capability calls. -/
def runCustomScript (cols : Columns) : List CustomAct → DBState → Outcome
  | [], st => Outcome.pure st
  | a :: rest, st => (runCustomAct cols a st).seq (runCustomScript cols rest)

/-- Phase 1 of a declared step: `if (step.preNoTxn?.length) await runBatchNoTxn(...)`. -/
def phasePre (env : Env) (v : Nat) (step : MigrationStep) (st : DBState) : Outcome :=
  if step.preNoTxn.isEmpty then Outcome.pure st
  else if env.failsAt v PhaseK.preP then Outcome.throw st
  else runBatchNoTxn step.preNoTxn st

/-- Phase 2: `if (step.strategy === 'rebuild') await rebuildPreserveData(...)`. -/
def phaseReb (cols : Columns) (env : Env) (v : Nat) (step : MigrationStep)
    (st : DBState) : Outcome :=
  if step.strategy = some true then
    (if env.failsAt v PhaseK.rebP then Outcome.throw st else rebuildOp cols st)
  else Outcome.pure st

/-- Phase 3: `if (step.txn?.length) await runBatchTxn(...)`. -/
def phaseTxn (env : Env) (v : Nat) (step : MigrationStep) (st : DBState) : Outcome :=
  if step.txn.isEmpty then Outcome.pure st
  else if env.failsAt v PhaseK.txnP then Outcome.throw st
  else runBatchTxn step.txn st

/-- Phase 4: `if (step.custom) await step.custom(makeMigrationCtx(...))`. -/
def phaseCust (cols : Columns) (env : Env) (v : Nat) (step : MigrationStep)
    (st : DBState) : Outcome :=
  match step.custom with
  | none => Outcome.pure st
  | some script =>
    if env.failsAt v PhaseK.custP then Outcome.throw st
    else runCustomScript cols script st

/-- Phase 5: `if (step.postNoTxn?.length) await runBatchNoTxn(...)`. -/
def phasePost (env : Env) (v : Nat) (step : MigrationStep) (st : DBState) : Outcome :=
  if step.postNoTxn.isEmpty then Outcome.pure st
  else if env.failsAt v PhaseK.postP then Outcome.throw st
  else runBatchNoTxn step.postNoTxn st

/-- Phases 4–5 of a declared step. -/
def stepTail4 (cols : Columns) (env : Env) (v : Nat) (step : MigrationStep)
    (st : DBState) : Outcome :=
  (phaseCust cols env v step st).seq fun st2 => phasePost env v step st2

/-- Phases 3–5 of a declared step. -/
def stepTail3 (cols : Columns) (env : Env) (v : Nat) (step : MigrationStep)
    (st : DBState) : Outcome :=
  (phaseTxn env v step st).seq fun st2 => stepTail4 cols env v step st2

/-- Phases 2–5 of a declared step. -/
def stepTail2 (cols : Columns) (env : Env) (v : Nat) (step : MigrationStep)
    (st : DBState) : Outcome :=
  (phaseReb cols env v step st).seq fun st2 => stepTail3 cols env v step st2

/-- The five phases of a declared step (reconcile.ts lines 129–133), each
guarded exactly as in the source (`xs?.length`, `strategy === 'rebuild'`,
`step.custom` present), each consulting the failure oracle, sequenced with
exception propagation. -/
def runStep (cols : Columns) (env : Env) (v : Nat) (step : MigrationStep)
    (st : DBState) : Outcome :=
  (phasePre env v step st).seq fun st2 => stepTail2 cols env v step st2

/-- The `while (cur < target)` loop of `migrateWithSteps` (reconcile.ts
lines 116–142), fuel-recursive with fuel `target - cur`.  A missing step
falls back to rebuild-then-persist; a declared step runs its phases and
persists on success; any throw propagates (the `catch` merely logs and
rethrows). -/
def migLoop (cols : Columns) (steps : List MigrationStep) (env : Env) :
    Nat → Nat → Nat → DBState → Outcome
  | 0, _, _, st => Outcome.pure st
  | fuel + 1, cur, target, st =>
    if cur < target then
      (match stepFor steps (cur + 1) with
       | none => (rebuildOp cols st).seq (setVersionOp (cur + 1))
       | some step => (runStep cols env (cur + 1) step st).seq (setVersionOp (cur + 1))).seq
        fun st2 => migLoop cols steps env fuel (cur + 1) target st2
    else Outcome.pure st

/-- `migrateWithSteps` (reconcile.ts lines 105–143). -/
def migrateWithSteps (cols : Columns) (steps : List MigrationStep) (env : Env)
    (cur target : Nat) (st : DBState) : Outcome :=
  migLoop cols steps env (target - cur) cur target st

/-! ## Reconcile engine (`reconcileSchema`) -/

/-- JavaScript's `String.prototype.toLowerCase`, modelled structurally over
the character list (Lean's `String.toLower` maps over an iterator and does
not evaluate in the kernel). -/
def jsToLower (s : String) : String :=
  ⟨s.data.map Char.toLower⟩

/-- The `sameLayout` test of legacy adoption (reconcile.ts lines 49–51):
equal cardinality and every declared name present among the existing names,
compared after lower-casing both sides. -/
def sameLayout (legacyCols : List String) (cols : Columns) : Bool :=
  (legacyCols.length == ((cols.map Prod.fst).map jsToLower).length) &&
    ((cols.map Prod.fst).map jsToLower).all fun c => (legacyCols.map jsToLower).contains c

/-- The tail block of `reconcileSchema` (reconcile.ts lines 65–78): reached
with the `current` read at entry.  When behind the target it either
delegates to the migration runner (some steps declared) or performs one
rebuild, replays the two after-create batches, and persists the target. -/
def migrateBlock (cols : Columns) (ddl : DDLOption) (env : Env)
    (current : Nat) (st : DBState) : Outcome :=
  if current < ddl.version then
    if ddl.migrationSteps.isEmpty then
      (rebuildOp cols st).seq fun st =>
      (if ddl.afterCreateTxn.isEmpty then Outcome.pure st
       else runBatchTxn ddl.afterCreateTxn st).seq fun st =>
      (if ddl.afterCreateNoTxn.isEmpty then Outcome.pure st
       else runBatchNoTxn ddl.afterCreateNoTxn st).seq fun st =>
      setVersionOp ddl.version st
    else migrateWithSteps cols ddl.migrationSteps env current ddl.version st
  else Outcome.pure st

/-- The bootstrap branch of `reconcileSchema` (reconcile.ts lines 33–46):
before-create batch (no transaction), CREATE TABLE (its own transaction),
after-create batch (one separate transaction), after-create-no-transaction
batch, registry upsert to the target, then return. -/
def bootstrapPath (cols : Columns) (ddl : DDLOption) (st : DBState) : Outcome :=
  (if ddl.beforeCreateNoTxn.isEmpty then Outcome.pure st
   else runBatchNoTxn ddl.beforeCreateNoTxn st).seq fun st =>
  (createTableOp cols st).seq fun st =>
  (if ddl.afterCreateTxn.isEmpty then Outcome.pure st
   else runBatchTxn ddl.afterCreateTxn st).seq fun st =>
  (if ddl.afterCreateNoTxn.isEmpty then Outcome.pure st
   else runBatchNoTxn ddl.afterCreateNoTxn st).seq fun st =>
  setVersionOp ddl.version st

/-- The legacy-adoption branch of `reconcileSchema` (reconcile.ts lines
48–63 plus the fall-through into lines 65–78): rebuild when the
case-insensitive layouts differ, replay the after-create transactional
batch, then EITHER (after-create-no-transaction batch non-empty) run it,
persist the target version and return, OR (empty) fall through into the
migration block with `current` still holding the version read at entry. -/
def legacyAdoptPath (cols : Columns) (ddl : DDLOption) (env : Env)
    (current : Nat) (st : DBState) : Outcome :=
  ((if sameLayout (getExistingColumns st) cols then Outcome.pure st
    else rebuildOp cols st).seq fun st1 =>
   (if ddl.afterCreateTxn.isEmpty then Outcome.pure st1
    else runBatchTxn ddl.afterCreateTxn st1)).seq fun st2 =>
  if ddl.afterCreateNoTxn.isEmpty then migrateBlock cols ddl env current st2
  else (runBatchNoTxn ddl.afterCreateNoTxn st2).seq fun st3 =>
    setVersionOp ddl.version st3

/-- The managed branch of `reconcileSchema` (a DDL plan is supplied). -/
def managedPath (cols : Columns) (ddl : DDLOption) (env : Env) (st : DBState) : Outcome :=
  if st.regVer = 0 then
    if (getExistingColumns st).isEmpty then bootstrapPath cols ddl st
    else legacyAdoptPath cols ddl env st.regVer st
  else migrateBlock cols ddl env st.regVer st

/-- `reconcileSchema` (reconcile.ts lines 14–79).  Faithful to the source's
control flow; see `legacyAdoptPath` for the asymmetric legacy branch. -/
def reconcileSchema (ctx : Ctx) (env : Env) (st : DBState) : Outcome :=
  match ctx.ddl with
  | none =>
    -- unmanaged mode (lines 18–23): create only a missing table, no version
    if (getExistingColumns st).isEmpty then createTableOp ctx.columns st
    else Outcome.pure st
  | some ddl => managedPath ctx.columns ddl env st

/-! ## Row validation and insertion (`validateRow`, `buildInsertStmt`) -/

/-- JavaScript's `Number.isSafeInteger` bound. -/
def isSafeInteger (n : Int) : Bool := n.natAbs ≤ 2 ^ 53 - 1

/-- JavaScript's `String.prototype.trim`: strip whitespace from both ends.
Modelled structurally over the character list (Lean's own `String.trim` is
defined by well-founded recursion and does not evaluate in the kernel);
`Char.isWhitespace` stands in for the JS whitespace class. -/
def jsTrim (s : String) : String :=
  ⟨((s.data.dropWhile Char.isWhitespace).reverse.dropWhile Char.isWhitespace).reverse⟩

/-- One column's contribution in `validateRow` (crud/insert.ts lines 42–100).
`none` in the result means the key is omitted from the validated row;
`Except.error` models the function throwing.  An input row is an association
list of the provided keys; a key bound to `undefined` behaves exactly like an
absent key in the source (`!provided || v === undefined`), so the model
identifies them. -/
def validateField (spec : ColumnSpec) (v : JsVal) : Except Unit (Option JsVal) :=
  match v with
  | JsVal.null =>
    if spec.nullable then Except.ok (some JsVal.null) else Except.error ()
  | _ =>
    match spec.type with
    | ColumnType.text =>
      match v with
      | JsVal.str s =>
        if jsTrim s = "" then
          if spec.default.isSome then Except.ok none
          else if spec.nullable then Except.ok (some JsVal.null)
          else Except.error ()
        else Except.ok (some (JsVal.str s))
      | _ => Except.error ()
    | ColumnType.integer =>
      match v with
      | JsVal.int n => if isSafeInteger n then Except.ok (some (JsVal.int n)) else Except.error ()
      | _ => Except.error ()
    | ColumnType.boolean =>
      match v with
      | JsVal.bool b => Except.ok (some (JsVal.bool b))
      | _ => Except.error ()
    | ColumnType.blob =>
      match v with
      | JsVal.obj o => Except.ok (some (JsVal.obj o))
      | _ => Except.error ()
    | ColumnType.real => Except.error ()  -- switch default: Unsupported column type

/-- `validateRow` (crud/insert.ts lines 37–102): walk the declared columns in
order, validating each provided field; a throw aborts the whole row. -/
def validateRow (cols : Columns) (row : List (String × JsVal)) :
    Except Unit (List (String × JsVal)) :=
  match cols with
  | [] => Except.ok []
  | (k, spec) :: rest =>
    match row.find? (fun kv => kv.1 = k) with
    | none =>
      validateRow rest row
    | some kv =>
      match validateField spec kv.2 with
      | Except.error e => Except.error e
      | Except.ok none => validateRow rest row
      | Except.ok (some w) =>
        match validateRow rest row with
        | Except.error e => Except.error e
        | Except.ok vr => Except.ok ((k, w) :: vr)

/-- `prep` (utils/prep.ts): how a validated value is bound as a SQL
parameter — `null` passes through, then dispatch on the declared type:
INTEGER as the number, BOOLEAN as 1/0, TEXT as the string, BLOB as its JSON
serialisation.  The type/value mismatch arms (bare TS casts) are
unreachable for rows that passed `validateRow`; they are mapped to NULL. -/
def prep (spec : ColumnSpec) (v : JsVal) : SVal :=
  match v with
  | JsVal.null => SVal.sNull
  | _ =>
    match spec.type with
    | ColumnType.integer =>
      match v with | JsVal.int n => SVal.sInt n | _ => SVal.sNull
    | ColumnType.boolean =>
      match v with | JsVal.bool b => SVal.sInt (if b then 1 else 0) | _ => SVal.sNull
    | ColumnType.text =>
      match v with | JsVal.str s => SVal.sText s | _ => SVal.sNull
    | ColumnType.blob =>
      match v with | JsVal.obj o => SVal.sText o | _ => SVal.sNull
    | ColumnType.real => SVal.sNull  -- prep's switch default throws; unreachable here

/-- The stored row produced by executing the statement `buildInsertStmt`
renders (crud/insert.ts lines 104–120): a column named in the validated row
stores its prepared parameter; a column the insert omits (including the
`DEFAULT VALUES` case, where the validated row is empty) stores its declared
DEFAULT or NULL. -/
def insertStoredRow (cols : Columns) (validated : List (String × JsVal)) : Row :=
  cols.map fun kv =>
    (kv.1, match validated.find? (fun p => p.1 = kv.1) with
           | some p => prep kv.2 p.2
           | none => defaultOrNull kv.2)

/-- The full insert pipeline for one row: validation then statement
construction and execution; an error writes nothing. -/
def insertRow (cols : Columns) (row : List (String × JsVal)) : Except Unit Row :=
  match validateRow cols row with
  | Except.error e => Except.error e
  | Except.ok vr => Except.ok (insertStoredRow cols vr)

/-! ## Lemmas about `ensureMeta` -/

lemma createTableIfNotExists_tables_mem (s : MetaState) (n : String) :
    n ∈ (createTableIfNotExists s n).tables := by
  unfold createTableIfNotExists
  split
  · assumption
  · simp

lemma createIndexIfNotExists_tables (s : MetaState) (n : String) :
    (createIndexIfNotExists s n).tables = s.tables := by
  unfold createIndexIfNotExists
  split <;> rfl

lemma createTableIfNotExists_indexes (s : MetaState) (n : String) :
    (createTableIfNotExists s n).indexes = s.indexes := by
  unfold createTableIfNotExists
  split <;> rfl

lemma createIndexIfNotExists_indexes_mem (s : MetaState) (n : String) :
    n ∈ (createIndexIfNotExists s n).indexes := by
  unfold createIndexIfNotExists
  split
  · assumption
  · simp

lemma ensureMeta_tables_mem (s : MetaState) :
    REG_TABLE_NAME ∈ (ensureMeta s).tables := by
  unfold ensureMeta
  rw [createIndexIfNotExists_tables]
  exact createTableIfNotExists_tables_mem s _

lemma ensureMeta_indexes_mem (s : MetaState) :
    REG_INDEX_NAME ∈ (ensureMeta s).indexes := by
  unfold ensureMeta
  exact createIndexIfNotExists_indexes_mem _ _

lemma createTableIfNotExists_of_mem (s : MetaState) (n : String) (h : n ∈ s.tables) :
    createTableIfNotExists s n = s := by
  unfold createTableIfNotExists
  simp [h]

lemma createIndexIfNotExists_of_mem (s : MetaState) (n : String) (h : n ∈ s.indexes) :
    createIndexIfNotExists s n = s := by
  unfold createIndexIfNotExists
  simp [h]

lemma ensureMeta_idem (s : MetaState) : ensureMeta (ensureMeta s) = ensureMeta s := by
  have h1 := ensureMeta_tables_mem s
  have h2 := ensureMeta_indexes_mem s
  have hdef : ensureMeta (ensureMeta s)
      = createIndexIfNotExists (createTableIfNotExists (ensureMeta s) REG_TABLE_NAME)
          REG_INDEX_NAME := rfl
  rw [hdef, createTableIfNotExists_of_mem _ _ h1, createIndexIfNotExists_of_mem _ _ h2]

lemma ensureMeta_iterate (s : MetaState) (n : Nat) (h : 1 ≤ n) :
    ensureMeta^[n] s = ensureMeta s := by
  induction n with
  | zero => omega
  | succ m ih =>
    rcases Nat.eq_or_lt_of_le h with h' | h'
    · simp [← h']
    · have hm : 1 ≤ m := by omega
      rw [Function.iterate_succ_apply', ih hm, ensureMeta_idem]

lemma ensureMeta_tables_count (s : MetaState)
    (h : s.tables.count REG_TABLE_NAME ≤ 1) :
    (ensureMeta s).tables.count REG_TABLE_NAME = 1 := by
  unfold ensureMeta
  rw [createIndexIfNotExists_tables]
  unfold createTableIfNotExists
  split
  · rename_i hm
    have : 0 < s.tables.count REG_TABLE_NAME := List.count_pos_iff.mpr hm
    omega
  · rename_i hm
    rw [List.count_append]
    rw [List.count_eq_zero_of_not_mem hm]
    simp

lemma ensureMeta_indexes_count (s : MetaState)
    (h : s.indexes.count REG_INDEX_NAME ≤ 1) :
    (ensureMeta s).indexes.count REG_INDEX_NAME = 1 := by
  unfold ensureMeta
  generalize hT : createTableIfNotExists s REG_TABLE_NAME = t
  have hidx : t.indexes = s.indexes := by
    rw [← hT]; exact createTableIfNotExists_indexes s _
  unfold createIndexIfNotExists
  split
  · rename_i hm
    rw [hidx] at hm
    have : 0 < s.indexes.count REG_INDEX_NAME := List.count_pos_iff.mpr hm
    rw [hidx]
    omega
  · rename_i hm
    rw [hidx] at hm
    show (t.indexes ++ [REG_INDEX_NAME]).count REG_INDEX_NAME = 1
    rw [hidx, List.count_append, List.count_eq_zero_of_not_mem hm]
    simp

/-- C8: `ensureMeta` is idempotent: for any store state holding at most one
object per catalog name (SQLite's invariant), after `n ≥ 1` calls the store
has exactly one registry backing table and exactly one supporting index, and
iterating the call beyond the first changes nothing (`n` calls = 1 call, so
every call after the first is side-effect-free). -/
theorem C8_ensureMeta_idempotent (s : MetaState) (n : Nat) (hn : 1 ≤ n)
    (ht : s.tables.count REG_TABLE_NAME ≤ 1)
    (hi : s.indexes.count REG_INDEX_NAME ≤ 1) :
    (ensureMeta^[n] s).tables.count REG_TABLE_NAME = 1 ∧
    (ensureMeta^[n] s).indexes.count REG_INDEX_NAME = 1 ∧
    ensureMeta^[n] s = ensureMeta s := by
  rw [ensureMeta_iterate s n hn]
  exact ⟨ensureMeta_tables_count s ht, ensureMeta_indexes_count s hi, rfl⟩

/-- Witness for C8 at `n = 3` from an empty store. -/
theorem C8_ensureMeta_idempotent_witness :
    (ensureMeta^[3] ⟨[], []⟩).tables.count REG_TABLE_NAME = 1 ∧
    (ensureMeta^[3] ⟨[], []⟩).indexes.count REG_INDEX_NAME = 1 ∧
    ensureMeta^[3] ⟨[], []⟩ = ensureMeta ⟨[], []⟩ :=
  C8_ensureMeta_idempotent ⟨[], []⟩ 3 (by decide) (by decide) (by decide)

/-! ## Lemmas about `rebuildPreserveData` -/


lemma copyCols_ne_row_id (oldCols : List String) (cols : Columns) (c : String)
    (h : c ∈ copyCols oldCols cols) : c ≠ SQLITE_RESERVED_PRIMARY_KEY := by
  unfold copyCols at h
  have h2 := List.of_mem_filter h
  simp only [Bool.and_eq_true, decide_eq_true_eq] at h2
  exact h2.1

lemma copyCols_not_row_id (oldCols : List String) (cols : Columns) :
    SQLITE_RESERVED_PRIMARY_KEY ∉ copyCols oldCols cols := fun h =>
  copyCols_ne_row_id oldCols cols _ h rfl

lemma copyCols_subset_new (oldCols : List String) (cols : Columns) (c : String)
    (h : c ∈ copyCols oldCols cols) : c ∈ cols.map Prod.fst := by
  unfold copyCols at h
  have h2 := List.of_mem_filter h
  simp only [Bool.and_eq_true, decide_eq_true_eq] at h2
  simpa using h2.2

lemma rebuiltRows_get (cols : Columns) (copy : List String) :
    ∀ (l : List Row) (i j : Nat),
      (rebuiltRows cols copy i l)[j]? = l[j]?.map fun r => rebuiltRow cols copy (i + j) r := by
  intro l
  induction l with
  | nil => intro i j; simp [rebuiltRows]
  | cons r rest ih =>
    intro i j
    cases j with
    | zero => simp [rebuiltRows]
    | succ j' =>
      have harith : i + 1 + j' = i + (j' + 1) := by omega
      simp only [rebuiltRows, List.getElem?_cons_succ, ih (i + 1) j', harith]

lemma rowVal_cons_of_ne (x : String × SVal) (l : Row) (c : String) (h : ¬x.1 = c) :
    rowVal (x :: l) c = rowVal l c := by
  unfold rowVal
  rw [List.find?_cons_of_neg _ (by simp [h])]

lemma rowVal_cons_self (x : String × SVal) (l : Row) (c : String) (h : x.1 = c) :
    rowVal (x :: l) c = x.2 := by
  unfold rowVal
  rw [List.find?_cons_of_pos _ (by simp [h])]

lemma rowVal_mapped_cols (copy : List String) (r : Row) (c : String) :
    ∀ (cs : Columns),
      rowVal (cs.map fun kv =>
        (kv.1, if copy.contains kv.1 then rowVal r kv.1 else defaultOrNull kv.2)) c =
      match cs.find? (fun kv => kv.1 = c) with
      | some kv => if copy.contains c then rowVal r c else defaultOrNull kv.2
      | none => SVal.sNull := by
  intro cs
  induction cs with
  | nil => simp [rowVal]
  | cons a rest ih =>
    rw [List.map_cons]
    by_cases hac : a.1 = c
    · rw [rowVal_cons_self _ _ _ hac]
      rw [List.find?_cons_of_pos _ (by simp [hac])]
      simp [hac]
    · rw [rowVal_cons_of_ne _ _ _ hac]
      rw [List.find?_cons_of_neg _ (by simp [hac])]
      exact ih

lemma rowVal_rebuiltRow (cols : Columns) (copy : List String) (i : Nat) (r : Row)
    (c : String) (hc : c ≠ SQLITE_RESERVED_PRIMARY_KEY) :
    rowVal (rebuiltRow cols copy i r) c =
      match cols.find? (fun kv => kv.1 = c) with
      | some kv => if copy.contains c then rowVal r c else defaultOrNull kv.2
      | none => SVal.sNull := by
  unfold rebuiltRow
  rw [rowVal_cons_of_ne _ _ _ (by simpa using Ne.symm hc)]
  exact rowVal_mapped_cols copy r c cols

lemma rowVal_rebuiltRow_row_id (cols : Columns) (copy : List String) (i : Nat) (r : Row) :
    rowVal (rebuiltRow cols copy i r) SQLITE_RESERVED_PRIMARY_KEY
      = SVal.sInt (Int.ofNat (i + 1)) := by
  unfold rebuiltRow
  rw [rowVal_cons_self _ _ _ rfl]

lemma find?_eq_of_nodup_keys :
    ∀ (cols : Columns) (kv : String × ColumnSpec),
      (cols.map Prod.fst).Nodup → kv ∈ cols →
      cols.find? (fun p => p.1 = kv.1) = some kv := by
  intro cols
  induction cols with
  | nil => intro kv _ hmem; simp at hmem
  | cons a rest ih =>
    intro kv hnd hmem
    rw [List.map_cons, List.nodup_cons] at hnd
    rcases List.mem_cons.mp hmem with rfl | hmem'
    · rw [List.find?_cons_of_pos _ (by simp)]
    · have hne : ¬(a.1 = kv.1) := by
        intro he
        exact hnd.1 (he ▸ List.mem_map_of_mem Prod.fst hmem')
      rw [List.find?_cons_of_neg _ (by simp [hne])]
      exact ih kv hnd.2 hmem'

lemma rebuildPreserveData_renderOk (cols : Columns) (st st' : DBState)
    (hreb : rebuildPreserveData cols st = some st') : renderOk cols = true := by
  cases hh : renderOk cols
  · unfold rebuildPreserveData at hreb
    rw [hh] at hreb
    simp at hreb
  · rfl

lemma rebuildPreserveData_eq (cols : Columns) (st : DBState) (t : PhysTable)
    (hphys : st.phys = some t) (hren : renderOk cols = true) :
    rebuildPreserveData cols st =
      some { st with phys := some ⟨SQLITE_RESERVED_PRIMARY_KEY :: cols.map Prod.fst,
        if (copyCols t.cols cols).isEmpty then []
        else rebuiltRows cols (copyCols t.cols cols) 0 t.rows⟩ } := by
  unfold rebuildPreserveData
  rw [hren, hphys]
  simp

/-- Concrete declared schema for the C2 instance: `{a, x}`, both nullable
TEXT, no defaults. -/
def c2cols : Columns :=
  [("a", ⟨ColumnType.text, true, none, false, none⟩),
   ("x", ⟨ColumnType.text, true, none, false, none⟩)]

/-- Concrete old physical layout for the C2 instance: columns `A, x` and one
row `A = "v", x = "w"`. -/
def c2old : PhysTable := ⟨["A", "x"], [[("A", SVal.sText "v"), ("x", SVal.sText "w")]]⟩

/-- The state holding the old C2 table, untracked. -/
def c2st : DBState := ⟨some c2old, 0⟩

/-- The table `rebuildPreserveData` produces from `c2old` under `c2cols`. -/
def c2new : PhysTable :=
  ⟨["row_id", "a", "x"], [[("row_id", SVal.sInt 1), ("a", SVal.sNull), ("x", SVal.sText "w")]]⟩

/-- The post-rebuild state of the C2 instance. -/
def c2stNew : DBState := ⟨some c2new, 0⟩

/-- C2 is REFUTED as stated: the copy-column filter of `rebuildPreserveData`
(rebuild.ts line 44) compares names case-SENSITIVELY (`newCols.includes(c)`),
not case-insensitively.  Concrete input: old layout `["A", "x"]` with one row
`A = "v", x = "w"` and Declared Schema `{a, x}`.  The name `a` is in both the
old layout and the declared schema case-insensitively, yet after the rebuild
the surviving row holds NULL in column `a`, not the old value `"v"` the claim
requires to be preserved. -/
theorem C2_counterexample :
    rebuildPreserveData c2cols c2st = some c2stNew ∧
    rowVal [[("A", SVal.sText "v"), ("x", SVal.sText "w")]].head! "A" = SVal.sText "v" ∧
    rowVal [[("row_id", SVal.sInt 1), ("a", SVal.sNull), ("x", SVal.sText "w")]].head! "a"
      = SVal.sNull ∧
    SVal.sNull ≠ SVal.sText "v" := by
  refine ⟨by decide, by decide, by decide, by decide⟩

/-- C2 (amended): rebuild preserves values only for columns whose EXACT
(case-sensitive) name exists in both the old physical layout and the new
Declared Schema — the reserved identity column excepted; old columns whose
name is not among the declared ones disappear from the layout; and every
surviving row holds the declared default or NULL, never a copied value, in
each declared column outside the copy list (in particular in every column
only in the new schema).  The declared schema is assumed not to redeclare
the reserved column and to have distinct names, both enforced at
construction time by the `SQLiteTable` constructor and JS object-key
semantics. -/
theorem C2_rebuild_exact_name_preservation
    (cols : Columns) (st st' : DBState) (t nt : PhysTable)
    (hnodup : (cols.map Prod.fst).Nodup)
    (hres : SQLITE_RESERVED_PRIMARY_KEY ∉ cols.map Prod.fst)
    (hphys : st.phys = some t)
    (hreb : rebuildPreserveData cols st = some st')
    (hnt : st'.phys = some nt) :
    nt.cols = SQLITE_RESERVED_PRIMARY_KEY :: cols.map Prod.fst ∧
    (∀ c ∈ copyCols t.cols cols, ∀ (i : Nat) (r : Row), t.rows[i]? = some r →
      ∃ r', nt.rows[i]? = some r' ∧ rowVal r' c = rowVal r c) ∧
    (∀ c ∈ t.cols, c ∉ cols.map Prod.fst → c ≠ SQLITE_RESERVED_PRIMARY_KEY →
      c ∉ nt.cols) ∧
    (∀ kv ∈ cols, kv.1 ∉ copyCols t.cols cols →
      ∀ (i : Nat) (r' : Row), nt.rows[i]? = some r' → rowVal r' kv.1 = defaultOrNull kv.2) := by
  have hren := rebuildPreserveData_renderOk cols st st' hreb
  rw [rebuildPreserveData_eq cols st t hphys hren] at hreb
  have hst' := Option.some.inj hreb
  have hntv : nt = ⟨SQLITE_RESERVED_PRIMARY_KEY :: cols.map Prod.fst,
      if (copyCols t.cols cols).isEmpty then []
      else rebuiltRows cols (copyCols t.cols cols) 0 t.rows⟩ := by
    rw [← hst'] at hnt
    exact (Option.some.inj hnt).symm
  subst hntv
  refine ⟨rfl, ?_, ?_, ?_⟩
  · -- exact-name shared columns: every surviving row preserves the value
    intro c hcopy i r hir
    have hne : (copyCols t.cols cols).isEmpty = false := by
      cases hcc : copyCols t.cols cols with
      | nil => rw [hcc] at hcopy; cases hcopy
      | cons hd tl => rfl
    have hrows : (⟨SQLITE_RESERVED_PRIMARY_KEY :: cols.map Prod.fst,
        if (copyCols t.cols cols).isEmpty then []
        else rebuiltRows cols (copyCols t.cols cols) 0 t.rows⟩ : PhysTable).rows
        = rebuiltRows cols (copyCols t.cols cols) 0 t.rows := by
      show (if (copyCols t.cols cols).isEmpty then []
        else rebuiltRows cols (copyCols t.cols cols) 0 t.rows) = _
      rw [if_neg (by simp [hne])]
    refine ⟨rebuiltRow cols (copyCols t.cols cols) i r, ?_, ?_⟩
    · rw [hrows, rebuiltRows_get, hir]
      simp
    · rw [rowVal_rebuiltRow cols _ i r c (copyCols_ne_row_id t.cols cols c hcopy)]
      obtain ⟨kv, hkvmem, hkveq⟩ := List.mem_map.mp (copyCols_subset_new t.cols cols c hcopy)
      have hfind := find?_eq_of_nodup_keys cols kv hnodup hkvmem
      rw [hkveq] at hfind
      rw [hfind]
      show (if (copyCols t.cols cols).contains c = true then rowVal r c else defaultOrNull kv.2)
        = rowVal r c
      rw [if_pos (by simpa using hcopy)]
  · -- old columns not redeclared are gone from the layout
    intro c _ hcnot hcne hcin
    rcases List.mem_cons.mp hcin with h1 | h2
    · exact hcne h1
    · exact hcnot h2
  · -- declared columns outside the copy list hold default or NULL
    intro kv hkvmem hnotcopy i r' hir'
    cases hcc : (copyCols t.cols cols).isEmpty with
    | true =>
      have hrows0 : (⟨SQLITE_RESERVED_PRIMARY_KEY :: cols.map Prod.fst,
          if (copyCols t.cols cols).isEmpty then []
          else rebuiltRows cols (copyCols t.cols cols) 0 t.rows⟩ : PhysTable).rows
          = [] := by
        show (if (copyCols t.cols cols).isEmpty then []
          else rebuiltRows cols (copyCols t.cols cols) 0 t.rows) = _
        rw [if_pos (by simp [hcc])]
      rw [hrows0] at hir'
      simp at hir'
    | false =>
      have hrows : (⟨SQLITE_RESERVED_PRIMARY_KEY :: cols.map Prod.fst,
          if (copyCols t.cols cols).isEmpty then []
          else rebuiltRows cols (copyCols t.cols cols) 0 t.rows⟩ : PhysTable).rows
          = rebuiltRows cols (copyCols t.cols cols) 0 t.rows := by
        show (if (copyCols t.cols cols).isEmpty then []
          else rebuiltRows cols (copyCols t.cols cols) 0 t.rows) = _
        rw [if_neg (by simp [hcc])]
      rw [hrows, rebuiltRows_get] at hir'
      obtain ⟨r, hr, hrEq⟩ := Option.map_eq_some'.mp hir'
      rw [← hrEq]
      have hkvne : kv.1 ≠ SQLITE_RESERVED_PRIMARY_KEY := by
        intro he
        exact hres (he ▸ List.mem_map_of_mem Prod.fst hkvmem)
      rw [rowVal_rebuiltRow cols _ (0 + i) r kv.1 hkvne]
      rw [find?_eq_of_nodup_keys cols kv hnodup hkvmem]
      show (if (copyCols t.cols cols).contains kv.1 = true then rowVal r kv.1
        else defaultOrNull kv.2) = defaultOrNull kv.2
      rw [if_neg]
      intro hcontains
      exact hnotcopy (by simpa using hcontains)

/-- Witness for the amended C2 at the concrete instance: the exact-name
shared column `x` is preserved, `A` (only in the old layout) is gone, and
`a` (outside the case-sensitive copy list) holds NULL. -/
theorem C2_rebuild_exact_name_preservation_witness :
    c2new.cols = SQLITE_RESERVED_PRIMARY_KEY :: c2cols.map Prod.fst ∧
    (∀ c ∈ copyCols c2old.cols c2cols, ∀ (i : Nat) (r : Row), c2old.rows[i]? = some r →
      ∃ r', c2new.rows[i]? = some r' ∧ rowVal r' c = rowVal r c) ∧
    (∀ c ∈ c2old.cols, c ∉ c2cols.map Prod.fst → c ≠ SQLITE_RESERVED_PRIMARY_KEY →
      c ∉ c2new.cols) ∧
    (∀ kv ∈ c2cols, kv.1 ∉ copyCols c2old.cols c2cols →
      ∀ (i : Nat) (r' : Row), c2new.rows[i]? = some r' → rowVal r' kv.1 = defaultOrNull kv.2) :=
  C2_rebuild_exact_name_preservation c2cols c2st c2stNew c2old c2new
    (by decide) (by decide) rfl (by decide) rfl

/-- C9: the rebuild never copies the reserved primary key column — it is
excluded from the copy-column list for every old layout — and every
surviving row of the rebuilt table carries the freshly assigned
auto-increment identity `i + 1` at position `i`, regardless of the `row_id`
values the old rows carried. -/
theorem C9_rebuild_fresh_row_id
    (cols : Columns) (st st' : DBState) (t nt : PhysTable)
    (hphys : st.phys = some t)
    (hreb : rebuildPreserveData cols st = some st')
    (hnt : st'.phys = some nt) :
    SQLITE_RESERVED_PRIMARY_KEY ∉ copyCols t.cols cols ∧
    ∀ (i : Nat) (r' : Row), nt.rows[i]? = some r' →
      rowVal r' SQLITE_RESERVED_PRIMARY_KEY = SVal.sInt (Int.ofNat (i + 1)) := by
  have hren := rebuildPreserveData_renderOk cols st st' hreb
  rw [rebuildPreserveData_eq cols st t hphys hren] at hreb
  have hst' := Option.some.inj hreb
  have hntv : nt = ⟨SQLITE_RESERVED_PRIMARY_KEY :: cols.map Prod.fst,
      if (copyCols t.cols cols).isEmpty then []
      else rebuiltRows cols (copyCols t.cols cols) 0 t.rows⟩ := by
    rw [← hst'] at hnt
    exact (Option.some.inj hnt).symm
  subst hntv
  refine ⟨copyCols_not_row_id t.cols cols, ?_⟩
  intro i r' hir'
  cases hcc : (copyCols t.cols cols).isEmpty with
  | true =>
    have hrows0 : (⟨SQLITE_RESERVED_PRIMARY_KEY :: cols.map Prod.fst,
        if (copyCols t.cols cols).isEmpty then []
        else rebuiltRows cols (copyCols t.cols cols) 0 t.rows⟩ : PhysTable).rows
        = [] := by
      show (if (copyCols t.cols cols).isEmpty then []
        else rebuiltRows cols (copyCols t.cols cols) 0 t.rows) = _
      rw [if_pos (by simp [hcc])]
    rw [hrows0] at hir'
    simp at hir'
  | false =>
    have hrows : (⟨SQLITE_RESERVED_PRIMARY_KEY :: cols.map Prod.fst,
        if (copyCols t.cols cols).isEmpty then []
        else rebuiltRows cols (copyCols t.cols cols) 0 t.rows⟩ : PhysTable).rows
        = rebuiltRows cols (copyCols t.cols cols) 0 t.rows := by
      show (if (copyCols t.cols cols).isEmpty then []
        else rebuiltRows cols (copyCols t.cols cols) 0 t.rows) = _
      rw [if_neg (by simp [hcc])]
    rw [hrows, rebuiltRows_get] at hir'
    obtain ⟨r, hr, hrEq⟩ := Option.map_eq_some'.mp hir'
    rw [← hrEq]
    rw [rowVal_rebuiltRow_row_id]
    simp

/-- Witness for C9: an old table whose row carried `row_id = 7` is rebuilt
with `row_id = 1` in position 0, and `row_id` is not in the copy list. -/
theorem C9_rebuild_fresh_row_id_witness :
    SQLITE_RESERVED_PRIMARY_KEY ∉ copyCols ["row_id", "a"]
      [("a", ⟨ColumnType.text, true, none, false, none⟩)] ∧
    rowVal [("row_id", SVal.sInt 1), ("a", SVal.sText "v")] SQLITE_RESERVED_PRIMARY_KEY
      = SVal.sInt 1 := by
  have h := C9_rebuild_fresh_row_id
    [("a", ⟨ColumnType.text, true, none, false, none⟩)]
    ⟨some ⟨["row_id", "a"], [[("row_id", SVal.sInt 7), ("a", SVal.sText "v")]]⟩, 1⟩
    ⟨some ⟨["row_id", "a"], [[("row_id", SVal.sInt 1), ("a", SVal.sText "v")]]⟩, 1⟩
    ⟨["row_id", "a"], [[("row_id", SVal.sInt 7), ("a", SVal.sText "v")]]⟩
    ⟨["row_id", "a"], [[("row_id", SVal.sInt 1), ("a", SVal.sText "v")]]⟩
    rfl (by decide) rfl
  exact ⟨h.1, h.2 0 _ rfl⟩

/-! ## Lemmas about `validateRow` / `insertStoredRow` -/

lemma validateRow_keys :
    ∀ (cols : Columns) (row vr : List (String × JsVal)),
      validateRow cols row = Except.ok vr → ∀ p ∈ vr, p.1 ∈ cols.map Prod.fst := by
  intro cols
  induction cols with
  | nil =>
    intro row vr h p hp
    unfold validateRow at h
    simp only [Except.ok.injEq] at h
    subst h
    cases hp
  | cons a rest ih =>
    intro row vr h p hp
    obtain ⟨k, spec⟩ := a
    rw [List.map_cons]
    unfold validateRow at h
    split at h
    · exact List.mem_cons_of_mem _ (ih row vr h p hp)
    · split at h
      · simp at h
      · exact List.mem_cons_of_mem _ (ih row vr h p hp)
      · split at h
        · simp at h
        · simp only [Except.ok.injEq] at h
          subst h
          rcases List.mem_cons.mp hp with rfl | hp'
          · exact List.mem_cons_self _ _
          · exact List.mem_cons_of_mem _ (ih row _ (by rename_i hrest; rw [hrest]) p hp')

lemma validateRow_skipped
    (k : String) (spec : ColumnSpec) (rv : String × JsVal) :
    ∀ (cols : Columns) (row vr : List (String × JsVal)),
      (cols.map Prod.fst).Nodup → (k, spec) ∈ cols →
      row.find? (fun kv => kv.1 = k) = some rv →
      validateField spec rv.2 = Except.ok none →
      validateRow cols row = Except.ok vr →
      vr.find? (fun p => p.1 = k) = none := by
  intro cols
  induction cols with
  | nil => intro row vr _ hmem; cases hmem
  | cons a rest ih =>
    intro row vr hnd hmem hfindrow hfield h
    obtain ⟨k', spec'⟩ := a
    rw [List.map_cons, List.nodup_cons] at hnd
    rcases List.mem_cons.mp hmem with heq | hmem'
    · -- the head is exactly the entry (k, spec): it is skipped
      injection heq with hk hspec
      subst hk
      subst hspec
      unfold validateRow at h
      rw [hfindrow] at h
      have h2 : (match validateField spec rv.2 with
        | Except.error e => Except.error e
        | Except.ok none => validateRow rest row
        | Except.ok (some w) =>
          match validateRow rest row with
          | Except.error e => Except.error e
          | Except.ok vr2 => Except.ok ((k, w) :: vr2)) = Except.ok vr := h
      rw [hfield] at h2
      have h3 : validateRow rest row = Except.ok vr := h2
      -- the rest cannot rebind k: its keys exclude k by nodup
      rw [List.find?_eq_none]
      intro p hp
      have hpk := validateRow_keys rest row vr h3 p hp
      simp only [decide_eq_true_eq]
      intro hpeq
      exact hnd.1 (hpeq ▸ hpk)
    · -- the entry lives in the tail; the head has a different key
      have hk'ne : k' ≠ k := by
        intro he
        refine hnd.1 ?_
        show k' ∈ List.map Prod.fst rest
        rw [he]
        exact List.mem_map_of_mem Prod.fst hmem'
      unfold validateRow at h
      split at h
      · exact ih row vr hnd.2 hmem' hfindrow hfield h
      · split at h
        · simp at h
        · exact ih row vr hnd.2 hmem' hfindrow hfield h
        · split at h
          · simp at h
          · simp only [Except.ok.injEq] at h
            subst h
            rw [List.find?_cons_of_neg _ (by simp [hk'ne])]
            exact ih row _ hnd.2 hmem' hfindrow hfield (by rename_i hrest; rw [hrest])

lemma validateRow_bound
    (k : String) (spec : ColumnSpec) (rv : String × JsVal) (w : JsVal) :
    ∀ (cols : Columns) (row vr : List (String × JsVal)),
      (cols.map Prod.fst).Nodup → (k, spec) ∈ cols →
      row.find? (fun kv => kv.1 = k) = some rv →
      validateField spec rv.2 = Except.ok (some w) →
      validateRow cols row = Except.ok vr →
      vr.find? (fun p => p.1 = k) = some (k, w) := by
  intro cols
  induction cols with
  | nil => intro row vr _ hmem; cases hmem
  | cons a rest ih =>
    intro row vr hnd hmem hfindrow hfield h
    obtain ⟨k', spec'⟩ := a
    rw [List.map_cons, List.nodup_cons] at hnd
    rcases List.mem_cons.mp hmem with heq | hmem'
    · injection heq with hk hspec
      subst hk
      subst hspec
      unfold validateRow at h
      rw [hfindrow] at h
      have h2 : (match validateField spec rv.2 with
        | Except.error e => Except.error e
        | Except.ok none => validateRow rest row
        | Except.ok (some w2) =>
          match validateRow rest row with
          | Except.error e => Except.error e
          | Except.ok vr2 => Except.ok ((k, w2) :: vr2)) = Except.ok vr := h
      rw [hfield] at h2
      have h3 : (match validateRow rest row with
        | Except.error e => Except.error e
        | Except.ok vr2 => Except.ok ((k, w) :: vr2)) = Except.ok vr := h2
      split at h3
      · simp at h3
      · simp only [Except.ok.injEq] at h3
        subst h3
        rw [List.find?_cons_of_pos _ (by simp)]
    · have hk'ne : k' ≠ k := by
        intro he
        refine hnd.1 ?_
        show k' ∈ List.map Prod.fst rest
        rw [he]
        exact List.mem_map_of_mem Prod.fst hmem'
      unfold validateRow at h
      split at h
      · exact ih row vr hnd.2 hmem' hfindrow hfield h
      · split at h
        · simp at h
        · exact ih row vr hnd.2 hmem' hfindrow hfield h
        · split at h
          · simp at h
          · simp only [Except.ok.injEq] at h
            subst h
            rw [List.find?_cons_of_neg _ (by simp [hk'ne])]
            exact ih row _ hnd.2 hmem' hfindrow hfield (by rename_i hrest; rw [hrest])

lemma validateRow_throws
    (k : String) (spec : ColumnSpec) (rv : String × JsVal) :
    ∀ (cols : Columns) (row : List (String × JsVal)),
      (k, spec) ∈ cols →
      row.find? (fun kv => kv.1 = k) = some rv →
      validateField spec rv.2 = Except.error () →
      validateRow cols row = Except.error () := by
  intro cols
  induction cols with
  | nil => intro row hmem; cases hmem
  | cons a rest ih =>
    intro row hmem hfindrow hfield
    obtain ⟨k', spec'⟩ := a
    rcases List.mem_cons.mp hmem with heq | hmem'
    · injection heq with hk hspec
      subst hk
      subst hspec
      unfold validateRow
      rw [hfindrow]
      show (match validateField spec rv.2 with
        | Except.error e => Except.error e
        | Except.ok none => validateRow rest row
        | Except.ok (some w) =>
          match validateRow rest row with
          | Except.error e => Except.error e
          | Except.ok vr2 => Except.ok ((k, w) :: vr2)) = Except.error ()
      rw [hfield]
    · have hrec := ih row hmem' hfindrow hfield
      unfold validateRow
      split
      · exact hrec
      · split
        all_goals first
          | exact hrec
          | rw [hrec]
          | exact congrArg Except.error (Subsingleton.elim _ _)

lemma rowVal_insertStoredRow (validated : List (String × JsVal)) (c : String) :
    ∀ (cols : Columns),
      rowVal (insertStoredRow cols validated) c =
        match cols.find? (fun kv => kv.1 = c) with
        | some kv =>
          (match validated.find? (fun p => p.1 = kv.1) with
           | some p => prep kv.2 p.2
           | none => defaultOrNull kv.2)
        | none => SVal.sNull := by
  intro cols
  unfold insertStoredRow
  induction cols with
  | nil => simp [rowVal]
  | cons a rest ih =>
    rw [List.map_cons]
    by_cases hac : a.1 = c
    · rw [rowVal_cons_self _ _ _ hac]
      rw [List.find?_cons_of_pos _ (by simp [hac])]
    · rw [rowVal_cons_of_ne _ _ _ hac]
      rw [List.find?_cons_of_neg _ (by simp [hac])]
      exact ih

/-- C10 is REFUTED in its headline claim: when the TEXT column declares the
EMPTY STRING as its default, inserting a trimmed-empty string omits the
field and the declared default — itself the empty string — is applied, so an
empty string IS stored.  Concrete input: column `a : TEXT NOT NULL DEFAULT
\x27\x27`, inserted row `{a: ""}`; the stored row holds `a = ""`. -/
theorem C10_counterexample :
    insertRow [("a", ⟨ColumnType.text, false, some (JsVal.str ""), false, none⟩)]
        [("a", JsVal.str "")]
      = Except.ok [("a", SVal.sText "")] ∧
    SVal.sText "" ≠ SVal.sNull := by
  exact ⟨rfl, by decide⟩

/-- C10 (amended): for every TEXT column, inserting a string that trims to
empty never passes the provided empty string through to storage: if the
column declares a default, the field is omitted from the insert so the
declared default applies (the stored value is the empty string only when
the declared default itself is); otherwise, if the column is nullable, NULL
is stored; otherwise `validateRow` throws and no row is written. -/
theorem C10_text_empty_amended
    (cols : Columns) (row : List (String × JsVal)) (k : String) (spec : ColumnSpec)
    (s : String)
    (hnodup : (cols.map Prod.fst).Nodup)
    (hmem : (k, spec) ∈ cols)
    (htype : spec.type = ColumnType.text)
    (hprov : row.find? (fun kv => kv.1 = k) = some (k, JsVal.str s))
    (htrim : jsTrim s = "") :
    (spec.default.isSome = true →
      ∀ vr, validateRow cols row = Except.ok vr →
        vr.find? (fun p => p.1 = k) = none ∧
        rowVal (insertStoredRow cols vr) k = defaultOrNull spec) ∧
    ((spec.default = none ∧ spec.nullable = true) →
      ∀ vr, validateRow cols row = Except.ok vr →
        rowVal (insertStoredRow cols vr) k = SVal.sNull) ∧
    ((spec.default = none ∧ spec.nullable = false) →
      insertRow cols row = Except.error ()) := by
  have hfind : cols.find? (fun p => p.1 = k) = some (k, spec) := by
    have := find?_eq_of_nodup_keys cols (k, spec) hnodup hmem
    simpa using this
  refine ⟨?omitted, ?nulled, ?thrown⟩
  case omitted =>
    intro hds vr hok
    have hfield : validateField spec (JsVal.str s) = Except.ok none := by
      simp [validateField, htype, htrim, hds]
    have hskip := validateRow_skipped k spec (k, JsVal.str s) cols row vr
      hnodup hmem hprov hfield hok
    refine ⟨hskip, ?_⟩
    rw [rowVal_insertStoredRow vr k cols, hfind]
    show (match vr.find? (fun p => p.1 = k) with
      | some p => prep spec p.2
      | none => defaultOrNull spec) = defaultOrNull spec
    rw [hskip]
  case nulled =>
    intro hdn vr hok
    have hfield : validateField spec (JsVal.str s) = Except.ok (some JsVal.null) := by
      simp [validateField, htype, htrim, hdn.1, hdn.2]
    have hbound := validateRow_bound k spec (k, JsVal.str s) JsVal.null cols row vr
      hnodup hmem hprov hfield hok
    rw [rowVal_insertStoredRow vr k cols, hfind]
    show (match vr.find? (fun p => p.1 = k) with
      | some p => prep spec p.2
      | none => defaultOrNull spec) = SVal.sNull
    rw [hbound]
    rfl
  case thrown =>
    intro hdn
    have hfield : validateField spec (JsVal.str s) = Except.error () := by
      simp [validateField, htype, htrim, hdn.1, hdn.2]
    have hthrow := validateRow_throws k spec (k, JsVal.str s) cols row hmem hprov hfield
    unfold insertRow
    rw [hthrow]

/-- Concrete TEXT column spec for the C10 witness: NOT NULL, no default. -/
def c10spec : ColumnSpec := ⟨ColumnType.text, false, none, false, none⟩

/-- Concrete declared columns for the C10 witness. -/
def c10cols : Columns := [("a", c10spec)]

/-- Concrete inserted row for the C10 witness: a whitespace-only string. -/
def c10row : List (String × JsVal) := [("a", JsVal.str " ")]

/-- Witness for the amended C10 at a NOT NULL, default-free TEXT column and
a whitespace-only input: the insert throws. -/
theorem C10_text_empty_amended_witness :
    (c10spec.default.isSome = true →
      ∀ vr, validateRow c10cols c10row = Except.ok vr →
        vr.find? (fun p => p.1 = "a") = none ∧
        rowVal (insertStoredRow c10cols vr) "a" = defaultOrNull c10spec) ∧
    ((c10spec.default = none ∧ c10spec.nullable = true) →
      ∀ vr, validateRow c10cols c10row = Except.ok vr →
        rowVal (insertStoredRow c10cols vr) "a" = SVal.sNull) ∧
    ((c10spec.default = none ∧ c10spec.nullable = false) →
      insertRow c10cols c10row = Except.error ()) :=
  C10_text_empty_amended c10cols c10row "a" c10spec " "
    (by decide) (by decide) rfl (by decide) rfl

/-! ## Trace machinery: registry-version monotonicity bookkeeping -/

/-- `monoFrom r tr` holds when every registry upsert in `tr` writes a
version at least as large as the version recorded when it executes,
starting from recorded version `r`. -/
def monoFrom : Nat → List Ev → Bool
  | _, [] => true
  | r, Ev.setVerE v :: rest => decide (r ≤ v) && monoFrom v rest
  | r, _ :: rest => monoFrom r rest

/-- The recorded registry version after replaying `tr` from `r`. -/
def endVer : Nat → List Ev → Nat
  | r, [] => r
  | _, Ev.setVerE v :: rest => endVer v rest
  | r, _ :: rest => endVer r rest

lemma endVer_append (r : Nat) (t1 t2 : List Ev) :
    endVer r (t1 ++ t2) = endVer (endVer r t1) t2 := by
  induction t1 generalizing r with
  | nil => rfl
  | cons e rest ih =>
    cases e with
    | setVerE v => simp [endVer, ih]
    | noTxnE s => simp [endVer, ih]
    | txnE a => simp [endVer, ih]
    | rebuildE => simp [endVer, ih]

lemma monoFrom_append (r : Nat) (t1 t2 : List Ev) :
    monoFrom r (t1 ++ t2) = (monoFrom r t1 && monoFrom (endVer r t1) t2) := by
  induction t1 generalizing r with
  | nil => simp [monoFrom, endVer]
  | cons e rest ih =>
    cases e with
    | setVerE v => simp [monoFrom, endVer, ih, Bool.and_assoc]
    | noTxnE s => simp [monoFrom, endVer, ih]
    | txnE a => simp [monoFrom, endVer, ih]
    | rebuildE => simp [monoFrom, endVer, ih]

lemma monoFrom_le_endVer (r : Nat) (tr : List Ev) (h : monoFrom r tr = true) :
    r ≤ endVer r tr := by
  induction tr generalizing r with
  | nil => exact Nat.le_refl r
  | cons e rest ih =>
    cases e with
    | setVerE v =>
      simp only [monoFrom, Bool.and_eq_true, decide_eq_true_eq] at h
      exact Nat.le_trans h.1 (ih v h.2)
    | noTxnE s => exact ih r h
    | txnE a => exact ih r h
    | rebuildE => exact ih r h

/-- A trace with no registry upsert is monotone from anywhere and preserves
the recorded version. -/
lemma monoFrom_of_no_set (tr : List Ev) (h : ∀ v, Ev.setVerE v ∉ tr) :
    ∀ r, monoFrom r tr = true ∧ endVer r tr = r := by
  induction tr with
  | nil => intro r; exact ⟨rfl, rfl⟩
  | cons e rest ih =>
    intro r
    have hrest : ∀ v, Ev.setVerE v ∉ rest := fun v hv => h v (List.mem_cons_of_mem _ hv)
    cases e with
    | setVerE v => exact absurd (List.mem_cons_self _ _) (h v)
    | noTxnE s => exact ih hrest r
    | txnE a => exact ih hrest r
    | rebuildE => exact ih hrest r

/-- The version-tracking invariant of an operation run from recorded
version `r`: its trace is monotone and its final state records exactly the
version the trace replays to. -/
def VersOK (r : Nat) (o : Outcome) : Prop :=
  monoFrom r o.tr = true ∧ o.st.regVer = endVer r o.tr

lemma versOK_seq (r : Nat) (a : Outcome) (f : DBState → Outcome)
    (ha : VersOK r a) (hf : VersOK (endVer r a.tr) (f a.st)) :
    VersOK r (a.seq f) := by
  unfold Outcome.seq
  split
  · constructor
    · show monoFrom r (a.tr ++ (f a.st).tr) = true
      rw [monoFrom_append, ha.1, hf.1]
      rfl
    · show (f a.st).st.regVer = endVer r (a.tr ++ (f a.st).tr)
      rw [endVer_append, hf.2]
  · exact ha

lemma versOK_of_no_set (r : Nat) (o : Outcome)
    (htr : ∀ v, Ev.setVerE v ∉ o.tr) (hreg : o.st.regVer = r) : VersOK r o := by
  obtain ⟨h1, h2⟩ := monoFrom_of_no_set o.tr htr r
  exact ⟨h1, by rw [h2, hreg]⟩

lemma versOK_runBatchNoTxn (st : DBState) (b : List Stmt) :
    VersOK st.regVer (runBatchNoTxn b st) := by
  refine versOK_of_no_set _ _ ?_ rfl
  intro v hv
  unfold runBatchNoTxn at hv
  simp only at hv
  obtain ⟨s, _, habs⟩ := List.mem_map.mp hv
  cases habs

lemma versOK_runBatchTxn (st : DBState) (b : List Stmt) :
    VersOK st.regVer (runBatchTxn b st) := by
  refine versOK_of_no_set _ _ ?_ rfl
  intro v hv
  unfold runBatchTxn at hv
  simp at hv

lemma versOK_runTxnStmt (st : DBState) (s : Stmt) :
    VersOK st.regVer (runTxnStmt s st) := by
  refine versOK_of_no_set _ _ ?_ rfl
  intro v hv
  unfold runTxnStmt at hv
  simp at hv

lemma createTable_regVer (cols : Columns) (st st' : DBState)
    (h : createTable cols st = some st') : st'.regVer = st.regVer := by
  unfold createTable at h
  split at h
  · simp at h
  · split at h
    · rw [← Option.some.inj h]
    · rw [← Option.some.inj h]

lemma rebuildPreserveData_regVer (cols : Columns) (st st' : DBState)
    (h : rebuildPreserveData cols st = some st') : st'.regVer = st.regVer := by
  unfold rebuildPreserveData at h
  split at h
  · simp at h
  · split at h
    · simp at h
    · rw [← Option.some.inj h]

lemma versOK_createTableOp (st : DBState) (cols : Columns) :
    VersOK st.regVer (createTableOp cols st) := by
  unfold createTableOp
  cases hc : createTable cols st with
  | none => exact versOK_of_no_set _ _ (by intro v hv; cases hv) rfl
  | some st' =>
    refine versOK_of_no_set _ _ ?_ (createTable_regVer cols st st' hc)
    intro v hv
    simp at hv

lemma versOK_rebuildOp (st : DBState) (cols : Columns) :
    VersOK st.regVer (rebuildOp cols st) := by
  unfold rebuildOp
  cases hc : rebuildPreserveData cols st with
  | none => exact versOK_of_no_set _ _ (by intro v hv; cases hv) rfl
  | some st' =>
    refine versOK_of_no_set _ _ ?_ (rebuildPreserveData_regVer cols st st' hc)
    intro v hv
    simp at hv

lemma versOK_pure (st : DBState) : VersOK st.regVer (Outcome.pure st) :=
  versOK_of_no_set _ _ (by intro v hv; cases hv) rfl

lemma versOK_throw (st : DBState) : VersOK st.regVer (Outcome.throw st) :=
  versOK_of_no_set _ _ (by intro v hv; cases hv) rfl

lemma versOK_setVersionOp (st : DBState) (v : Nat) (h : st.regVer ≤ v) :
    VersOK st.regVer (setVersionOp v st) := by
  unfold setVersionOp
  constructor
  · show monoFrom st.regVer [Ev.setVerE v] = true
    simp [monoFrom, h]
  · rfl

/-- An operation run from `st` that makes no registry upsert and preserves
the recorded version. -/
def NoSetOutcome (st : DBState) (o : Outcome) : Prop :=
  (∀ w, Ev.setVerE w ∉ o.tr) ∧ o.st.regVer = st.regVer

lemma noSet_seq (st : DBState) (a : Outcome) (f : DBState → Outcome)
    (ha : NoSetOutcome st a) (hf : NoSetOutcome a.st (f a.st)) :
    NoSetOutcome st (a.seq f) := by
  unfold Outcome.seq
  split
  · constructor
    · intro w hw
      rcases List.mem_append.mp hw with h | h
      · exact ha.1 w h
      · exact hf.1 w h
    · show (f a.st).st.regVer = st.regVer
      rw [hf.2, ha.2]
  · exact ha

lemma noSet_pure (st : DBState) : NoSetOutcome st (Outcome.pure st) :=
  ⟨fun _ hw => absurd hw (List.not_mem_nil _), rfl⟩

lemma noSet_throw (st : DBState) : NoSetOutcome st (Outcome.throw st) :=
  ⟨fun _ hw => absurd hw (List.not_mem_nil _), rfl⟩

lemma noSet_runBatchNoTxn (b : List Stmt) (st : DBState) :
    NoSetOutcome st (runBatchNoTxn b st) := by
  refine ⟨?_, rfl⟩
  intro w hw
  obtain ⟨s, _, habs⟩ := List.mem_map.mp hw
  cases habs

lemma noSet_runBatchTxn (b : List Stmt) (st : DBState) :
    NoSetOutcome st (runBatchTxn b st) := by
  refine ⟨?_, rfl⟩
  intro w hw
  simp [runBatchTxn] at hw

lemma noSet_runTxnStmt (s : Stmt) (st : DBState) :
    NoSetOutcome st (runTxnStmt s st) := by
  refine ⟨?_, rfl⟩
  intro w hw
  simp [runTxnStmt] at hw

lemma noSet_rebuildOp (cols : Columns) (st : DBState) :
    NoSetOutcome st (rebuildOp cols st) := by
  unfold rebuildOp
  cases hc : rebuildPreserveData cols st with
  | none => exact noSet_throw st
  | some st' =>
    refine ⟨?_, rebuildPreserveData_regVer cols st st' hc⟩
    intro w hw
    simp at hw

lemma noSet_createTableOp (cols : Columns) (st : DBState) :
    NoSetOutcome st (createTableOp cols st) := by
  unfold createTableOp
  cases hc : createTable cols st with
  | none => exact noSet_throw st
  | some st' =>
    refine ⟨?_, createTable_regVer cols st st' hc⟩
    intro w hw
    simp at hw

lemma noSet_runCustomAct (cols : Columns) (a : CustomAct) (st : DBState) :
    NoSetOutcome st (runCustomAct cols a st) := by
  cases a with
  | runC s => exact noSet_runTxnStmt s st
  | applyTxnC b => exact noSet_runBatchTxn b st
  | applyNoTxnC b => exact noSet_runBatchNoTxn b st
  | rebuildC => exact noSet_rebuildOp cols st

lemma noSet_runCustomScript (cols : Columns) :
    ∀ (script : List CustomAct) (st : DBState),
      NoSetOutcome st (runCustomScript cols script st) := by
  intro script
  induction script with
  | nil => intro st; exact noSet_pure st
  | cons a rest ih =>
    intro st
    exact noSet_seq st _ _ (noSet_runCustomAct cols a st) (ih _)

lemma noSet_phasePre (env : Env) (v : Nat) (step : MigrationStep) (st : DBState) :
    NoSetOutcome st (phasePre env v step st) := by
  unfold phasePre
  split
  · exact noSet_pure st
  · split
    · exact noSet_throw st
    · exact noSet_runBatchNoTxn _ st

lemma noSet_phaseReb (cols : Columns) (env : Env) (v : Nat) (step : MigrationStep)
    (st : DBState) : NoSetOutcome st (phaseReb cols env v step st) := by
  unfold phaseReb
  split
  · split
    · exact noSet_throw st
    · exact noSet_rebuildOp cols st
  · exact noSet_pure st

lemma noSet_phaseTxn (env : Env) (v : Nat) (step : MigrationStep) (st : DBState) :
    NoSetOutcome st (phaseTxn env v step st) := by
  unfold phaseTxn
  split
  · exact noSet_pure st
  · split
    · exact noSet_throw st
    · exact noSet_runBatchTxn _ st

lemma noSet_phaseCust (cols : Columns) (env : Env) (v : Nat) (step : MigrationStep)
    (st : DBState) : NoSetOutcome st (phaseCust cols env v step st) := by
  unfold phaseCust
  cases hc : step.custom with
  | none => exact noSet_pure st
  | some script =>
    show NoSetOutcome st (if env.failsAt v PhaseK.custP = true then Outcome.throw st
      else runCustomScript cols script st)
    split
    · exact noSet_throw st
    · exact noSet_runCustomScript cols script st

lemma noSet_phasePost (env : Env) (v : Nat) (step : MigrationStep) (st : DBState) :
    NoSetOutcome st (phasePost env v step st) := by
  unfold phasePost
  split
  · exact noSet_pure st
  · split
    · exact noSet_throw st
    · exact noSet_runBatchNoTxn _ st

lemma noSet_stepTail4 (cols : Columns) (env : Env) (v : Nat) (step : MigrationStep)
    (st : DBState) : NoSetOutcome st (stepTail4 cols env v step st) := by
  unfold stepTail4
  exact noSet_seq _ _ _ (noSet_phaseCust cols env v step st) (noSet_phasePost env v step _)

lemma noSet_stepTail3 (cols : Columns) (env : Env) (v : Nat) (step : MigrationStep)
    (st : DBState) : NoSetOutcome st (stepTail3 cols env v step st) := by
  unfold stepTail3
  exact noSet_seq _ _ _ (noSet_phaseTxn env v step st) (noSet_stepTail4 cols env v step _)

lemma noSet_stepTail2 (cols : Columns) (env : Env) (v : Nat) (step : MigrationStep)
    (st : DBState) : NoSetOutcome st (stepTail2 cols env v step st) := by
  unfold stepTail2
  exact noSet_seq _ _ _ (noSet_phaseReb cols env v step st) (noSet_stepTail3 cols env v step _)

lemma noSet_runStep (cols : Columns) (env : Env) (v : Nat) (step : MigrationStep)
    (st : DBState) : NoSetOutcome st (runStep cols env v step st) := by
  unfold runStep
  exact noSet_seq _ _ _ (noSet_phasePre env v step st) (noSet_stepTail2 cols env v step _)

lemma versOK_of_noSetOutcome (st : DBState) (o : Outcome) (h : NoSetOutcome st o) :
    VersOK st.regVer o :=
  versOK_of_no_set _ _ h.1 h.2

/-- Chaining: a no-set operation followed by anything version-correct. -/
lemma versOK_noSet_then (st : DBState) (a : Outcome) (f : DBState → Outcome)
    (ha : NoSetOutcome st a) (hf : VersOK a.st.regVer (f a.st)) :
    VersOK st.regVer (a.seq f) := by
  have hend := (monoFrom_of_no_set a.tr ha.1 st.regVer).2
  refine versOK_seq st.regVer a f
    ⟨(monoFrom_of_no_set a.tr ha.1 st.regVer).1, by rw [hend]; exact ha.2⟩ ?_
  rw [hend, ← ha.2]
  exact hf

/-- A no-set operation followed by a registry upsert to a version at least
the recorded one: version-correct, and the final recorded version is at
most the upserted one. -/
lemma versOK_opSet (st : DBState) (a : Outcome) (next : Nat)
    (hns : NoSetOutcome st a) (hle : st.regVer ≤ next) :
    VersOK st.regVer (a.seq (setVersionOp next)) ∧
    (a.seq (setVersionOp next)).st.regVer ≤ next := by
  constructor
  · refine versOK_noSet_then st a _ hns ?_
    exact versOK_setVersionOp a.st next (by rw [hns.2]; exact hle)
  · unfold Outcome.seq
    split
    · exact Nat.le_refl next
    · show a.st.regVer ≤ next
      rw [hns.2]
      exact hle

lemma versOK_migLoop (cols : Columns) (steps : List MigrationStep) (env : Env) :
    ∀ (fuel cur target : Nat) (st : DBState), st.regVer ≤ cur →
      VersOK st.regVer (migLoop cols steps env fuel cur target st) := by
  intro fuel
  induction fuel with
  | zero => intro cur target st _; exact versOK_pure st
  | succ fuel ih =>
    intro cur target st hle
    unfold migLoop
    split
    · cases hstep : stepFor steps (cur + 1) with
      | none =>
        obtain ⟨hA, hAle⟩ := versOK_opSet st (rebuildOp cols st) (cur + 1)
          (noSet_rebuildOp cols st) (Nat.le_trans hle (Nat.le_succ cur))
        refine versOK_seq st.regVer _ _ hA ?_
        rw [← hA.2]
        exact ih (cur + 1) target _ hAle
      | some step =>
        obtain ⟨hA, hAle⟩ := versOK_opSet st (runStep cols env (cur + 1) step st) (cur + 1)
          (noSet_runStep cols env (cur + 1) step st) (Nat.le_trans hle (Nat.le_succ cur))
        refine versOK_seq st.regVer _ _ hA ?_
        rw [← hA.2]
        exact ih (cur + 1) target _ hAle
    · exact versOK_pure st


lemma versOK_migrateBlock (cols : Columns) (ddl : DDLOption) (env : Env)
    (current : Nat) (st : DBState) (hreg : st.regVer = current) :
    VersOK st.regVer (migrateBlock cols ddl env current st) := by
  have hb1 : ∀ s : DBState, NoSetOutcome s (if ddl.afterCreateTxn.isEmpty then Outcome.pure s
      else runBatchTxn ddl.afterCreateTxn s) := by
    intro s
    split
    · exact noSet_pure s
    · exact noSet_runBatchTxn _ s
  have hb2 : ∀ s : DBState, NoSetOutcome s (if ddl.afterCreateNoTxn.isEmpty then Outcome.pure s
      else runBatchNoTxn ddl.afterCreateNoTxn s) := by
    intro s
    split
    · exact noSet_pure s
    · exact noSet_runBatchNoTxn _ s
  unfold migrateBlock
  by_cases hlt : current < ddl.version
  · rw [if_pos hlt]
    by_cases hsteps : ddl.migrationSteps.isEmpty = true
    · rw [if_pos hsteps]
      refine versOK_noSet_then st _ _ (noSet_rebuildOp cols st) ?_
      refine versOK_noSet_then _ _ _ (hb1 _) ?_
      refine versOK_noSet_then _ _ _ (hb2 _) ?_
      refine versOK_setVersionOp _ ddl.version ?_
      rw [(hb2 _).2, (hb1 _).2, (noSet_rebuildOp cols st).2, hreg]
      exact Nat.le_of_lt hlt
    · rw [if_neg hsteps]
      exact versOK_migLoop cols ddl.migrationSteps env (ddl.version - current)
        current ddl.version st (Nat.le_of_eq hreg)
  · rw [if_neg hlt]
    exact versOK_pure st

lemma versOK_bootstrapPath (cols : Columns) (ddl : DDLOption) (st : DBState)
    (hle : st.regVer ≤ ddl.version) :
    VersOK st.regVer (bootstrapPath cols ddl st) := by
  have hb0 : ∀ s : DBState, NoSetOutcome s (if ddl.beforeCreateNoTxn.isEmpty then Outcome.pure s
      else runBatchNoTxn ddl.beforeCreateNoTxn s) := by
    intro s
    split
    · exact noSet_pure s
    · exact noSet_runBatchNoTxn _ s
  have hb1 : ∀ s : DBState, NoSetOutcome s (if ddl.afterCreateTxn.isEmpty then Outcome.pure s
      else runBatchTxn ddl.afterCreateTxn s) := by
    intro s
    split
    · exact noSet_pure s
    · exact noSet_runBatchTxn _ s
  have hb2 : ∀ s : DBState, NoSetOutcome s (if ddl.afterCreateNoTxn.isEmpty then Outcome.pure s
      else runBatchNoTxn ddl.afterCreateNoTxn s) := by
    intro s
    split
    · exact noSet_pure s
    · exact noSet_runBatchNoTxn _ s
  unfold bootstrapPath
  refine versOK_noSet_then st _ _ (hb0 st) ?_
  refine versOK_noSet_then _ _ _ (noSet_createTableOp cols _) ?_
  refine versOK_noSet_then _ _ _ (hb1 _) ?_
  refine versOK_noSet_then _ _ _ (hb2 _) ?_
  refine versOK_setVersionOp _ ddl.version ?_
  rw [(hb2 _).2, (hb1 _).2, (noSet_createTableOp cols _).2, (hb0 st).2]
  exact hle

lemma versOK_legacyAdoptPath (cols : Columns) (ddl : DDLOption) (env : Env)
    (current : Nat) (st : DBState) (hreg : st.regVer = current) (h0 : st.regVer = 0) :
    VersOK st.regVer (legacyAdoptPath cols ddl env current st) := by
  have hb1 : ∀ s : DBState, NoSetOutcome s (if ddl.afterCreateTxn.isEmpty then Outcome.pure s
      else runBatchTxn ddl.afterCreateTxn s) := by
    intro s
    split
    · exact noSet_pure s
    · exact noSet_runBatchTxn _ s
  have hns12 : NoSetOutcome st ((if sameLayout (getExistingColumns st) cols then Outcome.pure st
      else rebuildOp cols st).seq fun st1 =>
      (if ddl.afterCreateTxn.isEmpty then Outcome.pure st1
       else runBatchTxn ddl.afterCreateTxn st1)) := by
    refine noSet_seq st _ _ ?_ (hb1 _)
    split
    · exact noSet_pure st
    · exact noSet_rebuildOp cols st
  unfold legacyAdoptPath
  refine versOK_noSet_then st _ _ hns12 ?_
  by_cases hemp : ddl.afterCreateNoTxn.isEmpty = true
  · rw [if_pos hemp]
    refine versOK_migrateBlock cols ddl env current _ ?_
    rw [hns12.2, hreg]
  · rw [if_neg hemp]
    refine versOK_noSet_then _ _ _ (noSet_runBatchNoTxn _ _) ?_
    refine versOK_setVersionOp _ ddl.version ?_
    rw [(noSet_runBatchNoTxn ddl.afterCreateNoTxn _).2, hns12.2, h0]
    exact Nat.zero_le _

lemma versOK_managedPath (cols : Columns) (ddl : DDLOption) (env : Env) (st : DBState) :
    VersOK st.regVer (managedPath cols ddl env st) := by
  unfold managedPath
  by_cases h0 : st.regVer = 0
  · rw [if_pos h0]
    by_cases hleg : (getExistingColumns st).isEmpty = true
    · rw [if_pos hleg]
      exact versOK_bootstrapPath cols ddl st (by rw [h0]; exact Nat.zero_le _)
    · rw [if_neg hleg]
      exact versOK_legacyAdoptPath cols ddl env st.regVer st rfl h0
  · rw [if_neg h0]
    exact versOK_migrateBlock cols ddl env st.regVer st rfl

lemma versOK_reconcileSchema (ctx : Ctx) (env : Env) (st : DBState) :
    VersOK st.regVer (reconcileSchema ctx env st) := by
  cases hddl : ctx.ddl with
  | none =>
    unfold reconcileSchema
    rw [hddl]
    show VersOK st.regVer (if (getExistingColumns st).isEmpty then createTableOp ctx.columns st
      else Outcome.pure st)
    by_cases hleg : (getExistingColumns st).isEmpty = true
    · rw [if_pos hleg]
      exact versOK_createTableOp st ctx.columns
    · rw [if_neg hleg]
      exact versOK_pure st
  | some ddl =>
    unfold reconcileSchema
    rw [hddl]
    show VersOK st.regVer (managedPath ctx.columns ddl env st)
    exact versOK_managedPath ctx.columns ddl env st

/-- C6: across any reconciliation pass — whatever the declared schema, the
DDL plan, the failure behaviour of the driver, and the starting state —
every registry upsert in the run's trace writes a version at least as large
as the version recorded at the moment of the call, and the final recorded
version is at least the initial one.  Hence the Registry version of the
managed table is monotonically non-decreasing across every sequence of
reconciliation passes. -/
theorem C6_registry_version_monotone (ctx : Ctx) (env : Env) (st : DBState) :
    monoFrom st.regVer (reconcileSchema ctx env st).tr = true ∧
    st.regVer ≤ (reconcileSchema ctx env st).st.regVer := by
  have h := versOK_reconcileSchema ctx env st
  refine ⟨h.1, ?_⟩
  rw [h.2]
  exact monoFrom_le_endVer _ _ h.1

lemma createTable_absent (cols : Columns) (st : DBState)
    (hphys : st.phys = none) (hren : renderOk cols = true) :
    createTable cols st
      = some { st with phys := some ⟨SQLITE_RESERVED_PRIMARY_KEY :: cols.map Prod.fst, []⟩ } := by
  unfold createTable
  rw [hren, hphys]
  simp

/-- C7: with no DDL plan supplied, reconciliation (a) never writes a
Registry version — the recorded version is untouched and no upsert event
appears in the trace, so a version of 0 stays 0; (b) when the table is
absent (and the declared defaults render), it creates the table with
exactly the reserved identity column followed by the declared columns and
no rows; and (c) when the table already has columns, it performs no action
at all: the state is exactly as found and the trace is empty. -/
theorem C7_unmanaged_frame (ctx : Ctx) (env : Env) (st : DBState)
    (hddl : ctx.ddl = none) :
    ((reconcileSchema ctx env st).st.regVer = st.regVer ∧
     ∀ v, Ev.setVerE v ∉ (reconcileSchema ctx env st).tr) ∧
    (st.phys = none → renderOk ctx.columns = true →
      (reconcileSchema ctx env st).ok = true ∧
      (reconcileSchema ctx env st).st.phys
        = some ⟨SQLITE_RESERVED_PRIMARY_KEY :: ctx.columns.map Prod.fst, []⟩) ∧
    (∀ t, st.phys = some t → t.cols ≠ [] →
      (reconcileSchema ctx env st).st = st ∧ (reconcileSchema ctx env st).tr = []) := by
  have hr : reconcileSchema ctx env st
      = if (getExistingColumns st).isEmpty then createTableOp ctx.columns st
        else Outcome.pure st := by
    unfold reconcileSchema
    rw [hddl]
  have hns : NoSetOutcome st (if (getExistingColumns st).isEmpty
      then createTableOp ctx.columns st else Outcome.pure st) := by
    split
    · exact noSet_createTableOp ctx.columns st
    · exact noSet_pure st
  refine ⟨⟨by rw [hr]; exact hns.2, by rw [hr]; exact hns.1⟩, ?_, ?_⟩
  · intro hphys hren
    have hcols : getExistingColumns st = [] := by
      unfold getExistingColumns
      rw [hphys]
    rw [hr, hcols]
    unfold createTableOp
    rw [createTable_absent ctx.columns st hphys hren]
    exact ⟨rfl, rfl⟩
  · intro t hphys htcols
    have hcols : getExistingColumns st = t.cols := by
      unfold getExistingColumns
      rw [hphys]
    have hne : (getExistingColumns st).isEmpty = false := by
      rw [hcols]
      cases hcc : t.cols with
      | nil => exact absurd hcc htcols
      | cons hd tl => rfl
    rw [hr, if_neg (by simp [hne])]
    exact ⟨rfl, rfl⟩

/-- Witness for C7: empty store, one declared TEXT column. -/
theorem C7_unmanaged_frame_witness :
    (((reconcileSchema ⟨[("a", ⟨ColumnType.text, true, none, false, none⟩)], none⟩
        envOk ⟨none, 0⟩).st.regVer = (0 : Nat) ∧
      ∀ v, Ev.setVerE v ∉ (reconcileSchema ⟨[("a", ⟨ColumnType.text, true, none, false, none⟩)], none⟩
        envOk ⟨none, 0⟩).tr) ∧
     ((⟨none, 0⟩ : DBState).phys = none →
       renderOk [("a", ⟨ColumnType.text, true, none, false, none⟩)] = true →
      (reconcileSchema ⟨[("a", ⟨ColumnType.text, true, none, false, none⟩)], none⟩
        envOk ⟨none, 0⟩).ok = true ∧
      (reconcileSchema ⟨[("a", ⟨ColumnType.text, true, none, false, none⟩)], none⟩
        envOk ⟨none, 0⟩).st.phys
        = some ⟨SQLITE_RESERVED_PRIMARY_KEY ::
            [("a", (⟨ColumnType.text, true, none, false, none⟩ : ColumnSpec))].map Prod.fst, []⟩) ∧
     (∀ t, (⟨none, 0⟩ : DBState).phys = some t → t.cols ≠ [] →
      (reconcileSchema ⟨[("a", ⟨ColumnType.text, true, none, false, none⟩)], none⟩
        envOk ⟨none, 0⟩).st = ⟨none, 0⟩ ∧
      (reconcileSchema ⟨[("a", ⟨ColumnType.text, true, none, false, none⟩)], none⟩
        envOk ⟨none, 0⟩).tr = [])) :=
  C7_unmanaged_frame ⟨[("a", ⟨ColumnType.text, true, none, false, none⟩)], none⟩
    envOk ⟨none, 0⟩ rfl

/-- DDL plan of the C3 instance: target version 1 with one statement in the
after-create-in-transaction batch. -/
def c3ddl : DDLOption := ⟨1, [], ["X"], [], [], []⟩

/-- Table context of the C3 instance. -/
def c3ctx : Ctx := ⟨[("a", ⟨ColumnType.text, true, none, false, none⟩)], some c3ddl⟩

/-- C3: the bootstrap ordering and the final version hold, BUT the claim's
"inside that same single transaction" is contradicted by the code — and by
the library's own `DDLOption` documentation, which promises `BEGIN; CREATE
TABLE; afterCreateTxn; COMMIT` as one unit (types.ts line 52).  `createTable`
runs `CREATE TABLE` inside its own single-statement transaction (`runTxn`),
and the after-create batch is executed afterwards by `runBatchTxn` as a
SEPARATE transaction: the trace holds two distinct transaction events, and
no transaction contains both the table creation and a batch statement.  The
registry version still ends at the target. -/
theorem C3_bootstrap_separate_transactions :
    (reconcileSchema c3ctx envOk ⟨none, 0⟩).tr
      = [Ev.txnE [Act.createA], Ev.txnE [Act.sqlA "X"], Ev.setVerE 1] ∧
    (reconcileSchema c3ctx envOk ⟨none, 0⟩).ok = true ∧
    (reconcileSchema c3ctx envOk ⟨none, 0⟩).st.regVer = 1 ∧
    ∀ acts, Ev.txnE acts ∈ (reconcileSchema c3ctx envOk ⟨none, 0⟩).tr →
      ¬(Act.createA ∈ acts ∧ Act.sqlA "X" ∈ acts) := by
  refine ⟨rfl, rfl, rfl, ?_⟩
  intro acts hmem hboth
  have htr : (reconcileSchema c3ctx envOk ⟨none, 0⟩).tr
      = [Ev.txnE [Act.createA], Ev.txnE [Act.sqlA "X"], Ev.setVerE 1] := rfl
  rw [htr] at hmem
  simp only [List.mem_cons, List.not_mem_nil, or_false] at hmem
  rcases hmem with h | h | h
  · injection h with ha
    subst ha
    exact absurd hboth.2 (by decide)
  · injection h with ha
    subst ha
    exact absurd hboth.1 (by decide)
  · cases h

/-- DDL plan of the C1 instance: target version 1, every batch empty, no
migration steps. -/
def c1ddl : DDLOption := ⟨1, [], [], [], [], []⟩

/-- Table context of the C1 instance: one declared column `a`. -/
def c1ctx : Ctx := ⟨[("a", ⟨ColumnType.text, true, none, false, none⟩)], some c1ddl⟩

/-- Starting state of the C1 instance: a legacy table with column `a`
(created outside the subsystem, so no reserved column) and registry
version 0 (untracked). -/
def c1st : DBState := ⟨some ⟨["a"], []⟩, 0⟩

/-- C1 is REFUTED as stated: legacy adoption with an EMPTY
after-create-no-transaction batch DOES persist the target version.  The
legacy branch takes no early return in that case and control falls through
into the migration block (reconcile.ts lines 65–78), which — registry
version 0 being below the target — rebuilds and upserts the target
version.  On this concrete legacy-adoption input the run succeeds, records
version 1, and its trace contains the registry upsert, so the table is NOT
re-evaluated as untracked on future opens. -/
theorem C1_counterexample :
    (reconcileSchema c1ctx envOk c1st).st.regVer = 1 ∧
    (reconcileSchema c1ctx envOk c1st).ok = true ∧
    Ev.setVerE 1 ∈ (reconcileSchema c1ctx envOk c1st).tr := by
  exact ⟨rfl, rfl, by decide⟩

/-! ## Success and failure characterisation of the migration runner -/

lemma seq_eq_of_ok (a : Outcome) (f : DBState → Outcome) (h : a.ok = true) :
    a.seq f = ⟨(f a.st).st, a.tr ++ (f a.st).tr, (f a.st).ok⟩ := by
  unfold Outcome.seq
  rw [if_pos h]

lemma seq_eq_of_not_ok (a : Outcome) (f : DBState → Outcome) (h : a.ok = false) :
    a.seq f = a := by
  unfold Outcome.seq
  rw [if_neg (by simp [h])]

lemma rebuildOp_spec (cols : Columns) (st : DBState)
    (hren : renderOk cols = true) (hphys : st.phys.isSome = true) :
    (rebuildOp cols st).ok = true ∧
    (rebuildOp cols st).st.phys.isSome = true ∧
    (rebuildOp cols st).tr = [Ev.rebuildE] := by
  obtain ⟨t, ht⟩ := Option.isSome_iff_exists.mp hphys
  unfold rebuildOp
  rw [rebuildPreserveData_eq cols st t ht hren]
  exact ⟨rfl, rfl, rfl⟩

/-- Whether the failure oracle makes some phase of a declared step throw
(only phases the step actually has are executed). -/
def declaredStepFails (env : Env) (v : Nat) (step : MigrationStep) : Bool :=
  (!step.preNoTxn.isEmpty && env.failsAt v PhaseK.preP) ||
  ((step.strategy == some true) && env.failsAt v PhaseK.rebP) ||
  (!step.txn.isEmpty && env.failsAt v PhaseK.txnP) ||
  (step.custom.isSome && env.failsAt v PhaseK.custP) ||
  (!step.postNoTxn.isEmpty && env.failsAt v PhaseK.postP)

lemma runCustomScript_spec (cols : Columns) (hren : renderOk cols = true) :
    ∀ (script : List CustomAct) (st : DBState), st.phys.isSome = true →
      (runCustomScript cols script st).ok = true ∧
      (runCustomScript cols script st).st.phys.isSome = true := by
  intro script
  induction script with
  | nil => intro st h; exact ⟨rfl, h⟩
  | cons a rest ih =>
    intro st h
    have ha : (runCustomAct cols a st).ok = true ∧
        (runCustomAct cols a st).st.phys.isSome = true := by
      cases a with
      | runC s => exact ⟨rfl, h⟩
      | applyTxnC b => exact ⟨rfl, h⟩
      | applyNoTxnC b => exact ⟨rfl, h⟩
      | rebuildC =>
        obtain ⟨h1, h2, _⟩ := rebuildOp_spec cols st hren h
        exact ⟨h1, h2⟩
    have hrec := ih _ ha.2
    constructor
    · show ((runCustomAct cols a st).seq (runCustomScript cols rest)).ok = true
      rw [seq_eq_of_ok _ _ ha.1]
      exact hrec.1
    · show ((runCustomAct cols a st).seq (runCustomScript cols rest)).st.phys.isSome = true
      rw [seq_eq_of_ok _ _ ha.1]
      exact hrec.2


lemma phasePre_st (env : Env) (v : Nat) (step : MigrationStep) (st : DBState) :
    (phasePre env v step st).st = st := by
  unfold phasePre
  split
  · rfl
  · split
    · rfl
    · rfl

lemma phaseTxn_st (env : Env) (v : Nat) (step : MigrationStep) (st : DBState) :
    (phaseTxn env v step st).st = st := by
  unfold phaseTxn
  split
  · rfl
  · split
    · rfl
    · rfl

lemma phasePost_st (env : Env) (v : Nat) (step : MigrationStep) (st : DBState) :
    (phasePost env v step st).st = st := by
  unfold phasePost
  split
  · rfl
  · split
    · rfl
    · rfl

lemma phasePre_ok (env : Env) (v : Nat) (step : MigrationStep) (st : DBState) :
    (phasePre env v step st).ok
      = !(!step.preNoTxn.isEmpty && env.failsAt v PhaseK.preP) := by
  unfold phasePre
  by_cases h1 : step.preNoTxn.isEmpty = true
  · rw [if_pos h1]
    simp [h1, Outcome.pure]
  · have h1' : step.preNoTxn.isEmpty = false := by
      cases hx : step.preNoTxn.isEmpty
      · rfl
      · exact absurd hx h1
    rw [if_neg h1]
    by_cases h2 : env.failsAt v PhaseK.preP = true
    · rw [if_pos h2]
      simp [h1', h2, Outcome.throw]
    · have h2' : env.failsAt v PhaseK.preP = false := by
        cases hx : env.failsAt v PhaseK.preP
        · rfl
        · exact absurd hx h2
      rw [if_neg h2]
      simp [h1', h2', runBatchNoTxn, runBatchTxn]

lemma phaseTxn_ok (env : Env) (v : Nat) (step : MigrationStep) (st : DBState) :
    (phaseTxn env v step st).ok
      = !(!step.txn.isEmpty && env.failsAt v PhaseK.txnP) := by
  unfold phaseTxn
  by_cases h1 : step.txn.isEmpty = true
  · rw [if_pos h1]
    simp [h1, Outcome.pure]
  · have h1' : step.txn.isEmpty = false := by
      cases hx : step.txn.isEmpty
      · rfl
      · exact absurd hx h1
    rw [if_neg h1]
    by_cases h2 : env.failsAt v PhaseK.txnP = true
    · rw [if_pos h2]
      simp [h1', h2, Outcome.throw]
    · have h2' : env.failsAt v PhaseK.txnP = false := by
        cases hx : env.failsAt v PhaseK.txnP
        · rfl
        · exact absurd hx h2
      rw [if_neg h2]
      simp [h1', h2', runBatchNoTxn, runBatchTxn]

lemma phasePost_ok (env : Env) (v : Nat) (step : MigrationStep) (st : DBState) :
    (phasePost env v step st).ok
      = !(!step.postNoTxn.isEmpty && env.failsAt v PhaseK.postP) := by
  unfold phasePost
  by_cases h1 : step.postNoTxn.isEmpty = true
  · rw [if_pos h1]
    simp [h1, Outcome.pure]
  · have h1' : step.postNoTxn.isEmpty = false := by
      cases hx : step.postNoTxn.isEmpty
      · rfl
      · exact absurd hx h1
    rw [if_neg h1]
    by_cases h2 : env.failsAt v PhaseK.postP = true
    · rw [if_pos h2]
      simp [h1', h2, Outcome.throw]
    · have h2' : env.failsAt v PhaseK.postP = false := by
        cases hx : env.failsAt v PhaseK.postP
        · rfl
        · exact absurd hx h2
      rw [if_neg h2]
      simp [h1', h2', runBatchNoTxn, runBatchTxn]

lemma phaseReb_spec (cols : Columns) (env : Env) (v : Nat) (step : MigrationStep)
    (st : DBState) (hren : renderOk cols = true) (hphys : st.phys.isSome = true) :
    (phaseReb cols env v step st).ok
      = !((step.strategy == some true) && env.failsAt v PhaseK.rebP) ∧
    (phaseReb cols env v step st).st.phys.isSome = true := by
  unfold phaseReb
  by_cases hs : step.strategy = some true
  · rw [if_pos hs]
    have hsb : (step.strategy == some true) = true := by
      rw [hs]
      rfl
    by_cases he : env.failsAt v PhaseK.rebP = true
    · rw [if_pos he]
      exact ⟨by simp [hsb, he, Outcome.throw], hphys⟩
    · have he' : env.failsAt v PhaseK.rebP = false := by
        cases hx : env.failsAt v PhaseK.rebP
        · rfl
        · exact absurd hx he
      rw [if_neg he]
      obtain ⟨h1, h2, _⟩ := rebuildOp_spec cols st hren hphys
      exact ⟨by rw [h1]; simp [he'], h2⟩
  · rw [if_neg hs]
    have hsb : (step.strategy == some true) = false := by
      cases hx : step.strategy == some true
      · rfl
      · exact absurd (by simpa using hx) hs
    exact ⟨by simp [hsb, Outcome.pure], hphys⟩

lemma phaseCust_spec (cols : Columns) (env : Env) (v : Nat) (step : MigrationStep)
    (st : DBState) (hren : renderOk cols = true) (hphys : st.phys.isSome = true) :
    (phaseCust cols env v step st).ok
      = !(step.custom.isSome && env.failsAt v PhaseK.custP) ∧
    (phaseCust cols env v step st).st.phys.isSome = true := by
  unfold phaseCust
  cases hc : step.custom with
  | none => exact ⟨by simp [Outcome.pure], hphys⟩
  | some script =>
    show (if env.failsAt v PhaseK.custP = true then Outcome.throw st
        else runCustomScript cols script st).ok
        = !((some script : Option (List CustomAct)).isSome && env.failsAt v PhaseK.custP) ∧
      (if env.failsAt v PhaseK.custP = true then Outcome.throw st
        else runCustomScript cols script st).st.phys.isSome = true
    by_cases he : env.failsAt v PhaseK.custP = true
    · rw [if_pos he]
      exact ⟨by simp [he, Outcome.throw], hphys⟩
    · have he' : env.failsAt v PhaseK.custP = false := by
        cases hx : env.failsAt v PhaseK.custP
        · rfl
        · exact absurd hx he
      rw [if_neg he]
      obtain ⟨h1, h2⟩ := runCustomScript_spec cols hren script st hphys
      exact ⟨by rw [h1]; simp [he'], h2⟩

lemma stepTail4_spec (cols : Columns) (env : Env) (v : Nat) (step : MigrationStep)
    (st : DBState) (hren : renderOk cols = true) (hphys : st.phys.isSome = true) :
    (stepTail4 cols env v step st).ok
      = !((step.custom.isSome && env.failsAt v PhaseK.custP) ||
          (!step.postNoTxn.isEmpty && env.failsAt v PhaseK.postP)) ∧
    (stepTail4 cols env v step st).st.phys.isSome = true := by
  unfold stepTail4
  obtain ⟨hco, hcp⟩ := phaseCust_spec cols env v step st hren hphys
  cases hcc : (step.custom.isSome && env.failsAt v PhaseK.custP) with
  | true =>
    have hko : (phaseCust cols env v step st).ok = false := by
      rw [hco, hcc]; rfl
    rw [seq_eq_of_not_ok _ _ hko]
    exact ⟨by rw [hko]; rfl, hcp⟩
  | false =>
    have hko : (phaseCust cols env v step st).ok = true := by
      rw [hco, hcc]; rfl
    rw [seq_eq_of_ok _ _ hko]
    constructor
    · show (phasePost env v step _).ok = _
      rw [phasePost_ok]
      simp
    · show (phasePost env v step _).st.phys.isSome = true
      rw [phasePost_st]
      exact hcp

lemma stepTail3_spec (cols : Columns) (env : Env) (v : Nat) (step : MigrationStep)
    (st : DBState) (hren : renderOk cols = true) (hphys : st.phys.isSome = true) :
    (stepTail3 cols env v step st).ok
      = !((!step.txn.isEmpty && env.failsAt v PhaseK.txnP) ||
          (step.custom.isSome && env.failsAt v PhaseK.custP) ||
          (!step.postNoTxn.isEmpty && env.failsAt v PhaseK.postP)) ∧
    (stepTail3 cols env v step st).st.phys.isSome = true := by
  unfold stepTail3
  cases hcc : (!step.txn.isEmpty && env.failsAt v PhaseK.txnP) with
  | true =>
    have hko : (phaseTxn env v step st).ok = false := by
      rw [phaseTxn_ok, hcc]; rfl
    rw [seq_eq_of_not_ok _ _ hko]
    refine ⟨by rw [hko]; rfl, ?_⟩
    rw [phaseTxn_st]
    exact hphys
  | false =>
    have hko : (phaseTxn env v step st).ok = true := by
      rw [phaseTxn_ok, hcc]; rfl
    rw [seq_eq_of_ok _ _ hko]
    have hst : (phaseTxn env v step st).st = st := phaseTxn_st env v step st
    obtain ⟨h4o, h4p⟩ := stepTail4_spec cols env v step (phaseTxn env v step st).st hren
      (by rw [hst]; exact hphys)
    constructor
    · show (stepTail4 cols env v step _).ok = _
      rw [h4o]
      simp
    · exact h4p

lemma stepTail2_spec (cols : Columns) (env : Env) (v : Nat) (step : MigrationStep)
    (st : DBState) (hren : renderOk cols = true) (hphys : st.phys.isSome = true) :
    (stepTail2 cols env v step st).ok
      = !(((step.strategy == some true) && env.failsAt v PhaseK.rebP) ||
          (!step.txn.isEmpty && env.failsAt v PhaseK.txnP) ||
          (step.custom.isSome && env.failsAt v PhaseK.custP) ||
          (!step.postNoTxn.isEmpty && env.failsAt v PhaseK.postP)) ∧
    (stepTail2 cols env v step st).st.phys.isSome = true := by
  unfold stepTail2
  obtain ⟨hro, hrp⟩ := phaseReb_spec cols env v step st hren hphys
  cases hcc : ((step.strategy == some true) && env.failsAt v PhaseK.rebP) with
  | true =>
    have hko : (phaseReb cols env v step st).ok = false := by
      rw [hro, hcc]; rfl
    rw [seq_eq_of_not_ok _ _ hko]
    exact ⟨by rw [hko]; rfl, hrp⟩
  | false =>
    have hko : (phaseReb cols env v step st).ok = true := by
      rw [hro, hcc]; rfl
    rw [seq_eq_of_ok _ _ hko]
    obtain ⟨h3o, h3p⟩ := stepTail3_spec cols env v step (phaseReb cols env v step st).st hren hrp
    constructor
    · show (stepTail3 cols env v step _).ok = _
      rw [h3o]
      simp
    · exact h3p

lemma runStep_spec (cols : Columns) (env : Env) (v : Nat) (step : MigrationStep)
    (st : DBState) (hren : renderOk cols = true) (hphys : st.phys.isSome = true) :
    (runStep cols env v step st).ok = !(declaredStepFails env v step) ∧
    (runStep cols env v step st).st.phys.isSome = true := by
  unfold runStep declaredStepFails
  cases hcc : (!step.preNoTxn.isEmpty && env.failsAt v PhaseK.preP) with
  | true =>
    have hko : (phasePre env v step st).ok = false := by
      rw [phasePre_ok, hcc]; rfl
    rw [seq_eq_of_not_ok _ _ hko]
    refine ⟨by rw [hko]; rfl, ?_⟩
    rw [phasePre_st]
    exact hphys
  | false =>
    have hko : (phasePre env v step st).ok = true := by
      rw [phasePre_ok, hcc]; rfl
    rw [seq_eq_of_ok _ _ hko]
    have hst : (phasePre env v step st).st = st := phasePre_st env v step st
    obtain ⟨h2o, h2p⟩ := stepTail2_spec cols env v step (phasePre env v step st).st hren
      (by rw [hst]; exact hphys)
    constructor
    · show (stepTail2 cols env v step _).ok = _
      rw [h2o]
      simp [Bool.or_assoc]
    · exact h2p

lemma runStep_tr_head (cols : Columns) (env : Env) (v : Nat) (step : MigrationStep)
    (st : DBState) (hpre : step.preNoTxn ≠ [])
    (henv : env.failsAt v PhaseK.preP = false) :
    (runStep cols env v step st).tr.head?
      = some (Ev.noTxnE (step.preNoTxn.headD "")) := by
  unfold runStep
  have hp : phasePre env v step st = runBatchNoTxn step.preNoTxn st := by
    unfold phasePre
    rw [if_neg (by cases hx : step.preNoTxn with
        | nil => exact absurd hx hpre
        | cons a l => simp)]
    rw [if_neg (by simp [henv])]
  rw [hp]
  rw [seq_eq_of_ok _ _ rfl]
  show (List.map Ev.noTxnE step.preNoTxn ++ _).head? = _
  cases hx : step.preNoTxn with
  | nil => exact absurd hx hpre
  | cons a l => simp

lemma setVersionOp_after (a : Outcome) (vv : Nat) (h : a.ok = true) :
    (a.seq (setVersionOp vv)).ok = true ∧
    (a.seq (setVersionOp vv)).st.regVer = vv ∧
    (a.seq (setVersionOp vv)).st.phys = a.st.phys ∧
    (a.seq (setVersionOp vv)).tr = a.tr ++ [Ev.setVerE vv] := by
  rw [seq_eq_of_ok _ _ h]
  exact ⟨rfl, rfl, rfl, rfl⟩

lemma head?_append_some {α : Type} (l l2 : List α) (x : α) (h : l.head? = some x) :
    (l ++ l2).head? = some x := by
  cases l with
  | nil => cases h
  | cons a t =>
    simp only [List.head?_cons, Option.some.injEq] at h
    simp [h]

lemma migLoop_ok (cols : Columns) (steps : List MigrationStep) (env : Env)
    (hren : renderOk cols = true)
    (hok : ∀ u s2, stepFor steps u = some s2 → declaredStepFails env u s2 = false) :
    ∀ (fuel cur target : Nat) (st : DBState), fuel = target - cur → st.phys.isSome = true →
      (migLoop cols steps env fuel cur target st).ok = true ∧
      (migLoop cols steps env fuel cur target st).st.phys.isSome = true ∧
      (migLoop cols steps env fuel cur target st).st.regVer
        = (if cur < target then target else st.regVer) := by
  intro fuel
  induction fuel with
  | zero =>
    intro cur target st hfuel hphys
    have hnc : ¬ cur < target := by omega
    exact ⟨rfl, hphys, by rw [if_neg hnc]; rfl⟩
  | succ fuel ih =>
    intro cur target st hfuel hphys
    have hlt : cur < target := by omega
    unfold migLoop
    rw [if_pos hlt]
    cases hstep : stepFor steps (cur + 1) with
    | none =>
      obtain ⟨hro, hrp, _⟩ := rebuildOp_spec cols st hren hphys
      obtain ⟨hAok, hAreg, hAphys, _⟩ := setVersionOp_after (rebuildOp cols st) (cur + 1) hro
      rw [seq_eq_of_ok _ _ hAok]
      obtain ⟨m1, m2, m3⟩ := ih (cur + 1) target _ (by omega) (by rw [hAphys]; exact hrp)
      refine ⟨m1, m2, ?_⟩
      show (migLoop cols steps env fuel (cur + 1) target _).st.regVer = _
      rw [m3, if_pos hlt]
      by_cases h2 : cur + 1 < target
      · rw [if_pos h2]
      · rw [if_neg h2, hAreg]
        omega
    | some s2 =>
      have hfail2 := hok (cur + 1) s2 hstep
      obtain ⟨hso, hsp⟩ := runStep_spec cols env (cur + 1) s2 st hren hphys
      have hok2 : (runStep cols env (cur + 1) s2 st).ok = true := by
        rw [hso, hfail2]
        rfl
      obtain ⟨hAok, hAreg, hAphys, _⟩ := setVersionOp_after (runStep cols env (cur + 1) s2 st)
        (cur + 1) hok2
      rw [seq_eq_of_ok _ _ hAok]
      obtain ⟨m1, m2, m3⟩ := ih (cur + 1) target _ (by omega) (by rw [hAphys]; exact hsp)
      refine ⟨m1, m2, ?_⟩
      show (migLoop cols steps env fuel (cur + 1) target _).st.regVer = _
      rw [m3, if_pos hlt]
      by_cases h2 : cur + 1 < target
      · rw [if_pos h2]
      · rw [if_neg h2, hAreg]
        omega

lemma migLoop_fail (cols : Columns) (steps : List MigrationStep) (env : Env)
    (hren : renderOk cols = true) (v : Nat) (fstep : MigrationStep)
    (hstep : stepFor steps v = some fstep)
    (hfail : declaredStepFails env v fstep = true)
    (hbelow : ∀ u s2, u < v → stepFor steps u = some s2 → declaredStepFails env u s2 = false) :
    ∀ (fuel cur target : Nat) (st : DBState), fuel = target - cur →
      st.phys.isSome = true → st.regVer = cur → cur < v → v ≤ target →
      (migLoop cols steps env fuel cur target st).ok = false ∧
      (migLoop cols steps env fuel cur target st).st.regVer = v - 1 := by
  intro fuel
  induction fuel with
  | zero =>
    intro cur target st hfuel _ _ hcv hvt
    exact absurd hfuel (by omega)
  | succ fuel ih =>
    intro cur target st hfuel hphys hreg hcv hvt
    have hlt : cur < target := by omega
    unfold migLoop
    rw [if_pos hlt]
    by_cases hv : cur + 1 = v
    · rw [hv, hstep]
      show ((((runStep cols env v fstep st).seq (setVersionOp v)).seq
          fun st2 => migLoop cols steps env fuel v target st2).ok = false) ∧
        ((((runStep cols env v fstep st).seq (setVersionOp v)).seq
          fun st2 => migLoop cols steps env fuel v target st2).st.regVer = v - 1)
      obtain ⟨hso, _⟩ := runStep_spec cols env v fstep st hren hphys
      have hko : (runStep cols env v fstep st).ok = false := by
        rw [hso, hfail]
        rfl
      rw [seq_eq_of_not_ok _ _ hko, seq_eq_of_not_ok _ _ hko]
      refine ⟨hko, ?_⟩
      rw [(noSet_runStep cols env v fstep st).2, hreg]
      omega
    · have hcv1 : cur + 1 < v := by omega
      cases hstep2 : stepFor steps (cur + 1) with
      | none =>
        obtain ⟨hro, hrp, _⟩ := rebuildOp_spec cols st hren hphys
        obtain ⟨hAok, hAreg, hAphys, _⟩ := setVersionOp_after (rebuildOp cols st) (cur + 1) hro
        rw [seq_eq_of_ok _ _ hAok]
        exact ih (cur + 1) target _ (by omega) (by rw [hAphys]; exact hrp) hAreg hcv1 hvt
      | some s2 =>
        have hfail2 := hbelow (cur + 1) s2 hcv1 hstep2
        obtain ⟨hso, hsp⟩ := runStep_spec cols env (cur + 1) s2 st hren hphys
        have hok2 : (runStep cols env (cur + 1) s2 st).ok = true := by
          rw [hso, hfail2]
          rfl
        obtain ⟨hAok, hAreg, hAphys, _⟩ := setVersionOp_after (runStep cols env (cur + 1) s2 st)
          (cur + 1) hok2
        rw [seq_eq_of_ok _ _ hAok]
        exact ih (cur + 1) target _ (by omega) (by rw [hAphys]; exact hsp) hAreg hcv1 hvt

lemma migLoop_tr_head (cols : Columns) (steps : List MigrationStep) (env : Env)
    (fuel cur target : Nat) (st : DBState) (step : MigrationStep)
    (hlt : cur < target) (hfuel : fuel = target - cur)
    (hstep : stepFor steps (cur + 1) = some step)
    (hpre : step.preNoTxn ≠ [])
    (henv : env.failsAt (cur + 1) PhaseK.preP = false) :
    (migLoop cols steps env fuel cur target st).tr.head?
      = some (Ev.noTxnE (step.preNoTxn.headD "")) := by
  cases fuel with
  | zero => exact absurd hfuel (by omega)
  | succ fuel =>
    unfold migLoop
    rw [if_pos hlt, hstep]
    show ((((runStep cols env (cur + 1) step st).seq (setVersionOp (cur + 1))).seq
      fun st2 => migLoop cols steps env fuel (cur + 1) target st2).tr.head?) = _
    have hhead := runStep_tr_head cols env (cur + 1) step st hpre henv
    by_cases hro : (runStep cols env (cur + 1) step st).ok = true
    · obtain ⟨hAok, _, _, hAtr⟩ := setVersionOp_after (runStep cols env (cur + 1) step st)
        (cur + 1) hro
      rw [seq_eq_of_ok _ _ hAok]
      show (((runStep cols env (cur + 1) step st).seq (setVersionOp (cur + 1))).tr ++ _).head? = _
      rw [hAtr]
      exact head?_append_some _ _ _ (head?_append_some _ _ _ hhead)
    · have hro' : (runStep cols env (cur + 1) step st).ok = false := by
        cases hx : (runStep cols env (cur + 1) step st).ok
        · rfl
        · exact absurd hx hro
      rw [seq_eq_of_not_ok _ _ hro', seq_eq_of_not_ok _ _ hro']
      exact hhead

lemma migLoop_infix (cols : Columns) (steps : List MigrationStep) (env : Env)
    (hren : renderOk cols = true)
    (hok : ∀ u s2, stepFor steps u = some s2 → declaredStepFails env u s2 = false) :
    ∀ (fuel cur target v : Nat) (st : DBState), fuel = target - cur →
      st.phys.isSome = true → cur < v → v ≤ target → stepFor steps v = none →
      List.IsInfix [Ev.rebuildE, Ev.setVerE v]
        (migLoop cols steps env fuel cur target st).tr := by
  intro fuel
  induction fuel with
  | zero =>
    intro cur target v st hfuel _ hcv hvt
    exact absurd hfuel (by omega)
  | succ fuel ih =>
    intro cur target v st hfuel hphys hcv hvt hmiss
    have hlt : cur < target := by omega
    unfold migLoop
    rw [if_pos hlt]
    by_cases hv : cur + 1 = v
    · rw [hv, hmiss]
      show List.IsInfix _ ((((rebuildOp cols st).seq (setVersionOp v)).seq
        fun st2 => migLoop cols steps env fuel v target st2).tr)
      obtain ⟨hro, hrp, hrtr⟩ := rebuildOp_spec cols st hren hphys
      obtain ⟨hAok, _, _, hAtr⟩ := setVersionOp_after (rebuildOp cols st) v hro
      rw [seq_eq_of_ok _ _ hAok]
      show List.IsInfix _ ((((rebuildOp cols st).seq (setVersionOp v)).tr ++ _))
      rw [hAtr, hrtr]
      exact (List.prefix_append _ _).isInfix
    · have hcv1 : cur + 1 < v := by omega
      cases hstep2 : stepFor steps (cur + 1) with
      | none =>
        obtain ⟨hro, hrp, _⟩ := rebuildOp_spec cols st hren hphys
        obtain ⟨hAok, _, hAphys, _⟩ := setVersionOp_after (rebuildOp cols st) (cur + 1) hro
        rw [seq_eq_of_ok _ _ hAok]
        have hrest := ih (cur + 1) target v _ (by omega) (by rw [hAphys]; exact hrp) hcv1 hvt hmiss
        exact hrest.trans (List.suffix_append _ _).isInfix
      | some s2 =>
        have hfail2 := hok (cur + 1) s2 hstep2
        obtain ⟨hso, hsp⟩ := runStep_spec cols env (cur + 1) s2 st hren hphys
        have hok2 : (runStep cols env (cur + 1) s2 st).ok = true := by
          rw [hso, hfail2]
          rfl
        obtain ⟨hAok, _, hAphys, _⟩ := setVersionOp_after (runStep cols env (cur + 1) s2 st)
          (cur + 1) hok2
        rw [seq_eq_of_ok _ _ hAok]
        have hrest := ih (cur + 1) target v _ (by omega) (by rw [hAphys]; exact hsp) hcv1 hvt hmiss
        exact hrest.trans (List.suffix_append _ _).isInfix

lemma stepFor_ne_nil (steps : List MigrationStep) (v : Nat) (s2 : MigrationStep)
    (h : stepFor steps v = some s2) : steps.isEmpty = false := by
  cases hc : steps with
  | nil =>
    rw [hc] at h
    simp [stepFor] at h
  | cons a l => rfl

/-- C5: for every version `v` in `(current, target]` with no declared step
targeting it, the migration runner performs a data-preserving rebuild
immediately followed by persisting Registry version `v` (the two events are
adjacent in the trace), and the whole run makes forward progress through
every version: it succeeds and ends at the target version. -/
theorem C5_missing_step_rebuild_and_persist
    (cols : Columns) (steps : List MigrationStep) (env : Env)
    (cur target v : Nat) (st : DBState)
    (hren : renderOk cols = true)
    (hphys : st.phys.isSome = true)
    (henv : ∀ u s2, stepFor steps u = some s2 → declaredStepFails env u s2 = false)
    (hcv : cur < v) (hvt : v ≤ target)
    (hmiss : stepFor steps v = none) :
    List.IsInfix [Ev.rebuildE, Ev.setVerE v]
      (migrateWithSteps cols steps env cur target st).tr ∧
    (migrateWithSteps cols steps env cur target st).ok = true ∧
    (migrateWithSteps cols steps env cur target st).st.regVer = target := by
  obtain ⟨h1, _, h3⟩ := migLoop_ok cols steps env hren henv (target - cur) cur target st rfl hphys
  refine ⟨?_, h1, ?_⟩
  · exact migLoop_infix cols steps env hren henv (target - cur) cur target v st rfl hphys
      hcv hvt hmiss
  · show (migLoop cols steps env (target - cur) cur target st).st.regVer = target
    rw [h3, if_pos (by omega)]

/-- Witness for C5: current version 1, target 2, the only declared step
targets version 5, so version 2 is missing. -/
theorem C5_missing_step_rebuild_and_persist_witness :
    List.IsInfix [Ev.rebuildE, Ev.setVerE 2]
      (migrateWithSteps [("a", ⟨ColumnType.text, true, none, false, none⟩)]
        [⟨5, [], [], [], none, none⟩] envOk 1 2
        ⟨some ⟨["row_id", "a"], []⟩, 1⟩).tr ∧
    (migrateWithSteps [("a", ⟨ColumnType.text, true, none, false, none⟩)]
        [⟨5, [], [], [], none, none⟩] envOk 1 2
        ⟨some ⟨["row_id", "a"], []⟩, 1⟩).ok = true ∧
    (migrateWithSteps [("a", ⟨ColumnType.text, true, none, false, none⟩)]
        [⟨5, [], [], [], none, none⟩] envOk 1 2
        ⟨some ⟨["row_id", "a"], []⟩, 1⟩).st.regVer = 2 :=
  C5_missing_step_rebuild_and_persist
    [("a", ⟨ColumnType.text, true, none, false, none⟩)]
    [⟨5, [], [], [], none, none⟩] envOk 1 2 2
    ⟨some ⟨["row_id", "a"], []⟩, 1⟩
    (by decide) rfl
    (by
      intro u s2 _
      unfold declaredStepFails
      simp [envOk])
    (by decide) (by decide) (by decide)

lemma batchesThenSet_spec (ddl : DDLOption) : ∀ s : DBState,
    (((if ddl.afterCreateTxn.isEmpty then Outcome.pure s
       else runBatchTxn ddl.afterCreateTxn s).seq fun st2 =>
      (if ddl.afterCreateNoTxn.isEmpty then Outcome.pure st2
       else runBatchNoTxn ddl.afterCreateNoTxn st2).seq fun st3 =>
      setVersionOp ddl.version st3).ok = true) ∧
    (((if ddl.afterCreateTxn.isEmpty then Outcome.pure s
       else runBatchTxn ddl.afterCreateTxn s).seq fun st2 =>
      (if ddl.afterCreateNoTxn.isEmpty then Outcome.pure st2
       else runBatchNoTxn ddl.afterCreateNoTxn st2).seq fun st3 =>
      setVersionOp ddl.version st3).st.regVer = ddl.version) := by
  have htail : ∀ s2 : DBState,
      (((if ddl.afterCreateNoTxn.isEmpty then Outcome.pure s2
         else runBatchNoTxn ddl.afterCreateNoTxn s2).seq fun st3 =>
        setVersionOp ddl.version st3).ok = true) ∧
      (((if ddl.afterCreateNoTxn.isEmpty then Outcome.pure s2
         else runBatchNoTxn ddl.afterCreateNoTxn s2).seq fun st3 =>
        setVersionOp ddl.version st3).st.regVer = ddl.version) := by
    intro s2
    by_cases h2 : ddl.afterCreateNoTxn.isEmpty = true
    · rw [if_pos h2, seq_eq_of_ok _ _ rfl]
      exact ⟨rfl, rfl⟩
    · rw [if_neg h2, seq_eq_of_ok _ _ rfl]
      exact ⟨rfl, rfl⟩
  intro s
  by_cases h1 : ddl.afterCreateTxn.isEmpty = true
  · rw [if_pos h1, seq_eq_of_ok _ _ rfl]
    exact htail s
  · rw [if_neg h1, seq_eq_of_ok _ _ rfl]
    exact htail s

lemma migrateBlock_ok (cols : Columns) (ddl : DDLOption) (env : Env)
    (current : Nat) (st : DBState)
    (hren : renderOk cols = true) (hphys : st.phys.isSome = true)
    (_hreg : st.regVer = current) (hlt : current < ddl.version)
    (henv : ∀ u s2, stepFor ddl.migrationSteps u = some s2 →
      declaredStepFails env u s2 = false) :
    (migrateBlock cols ddl env current st).ok = true ∧
    (migrateBlock cols ddl env current st).st.regVer = ddl.version := by
  unfold migrateBlock
  rw [if_pos hlt]
  by_cases hsteps : ddl.migrationSteps.isEmpty = true
  · rw [if_pos hsteps]
    obtain ⟨hro, _, _⟩ := rebuildOp_spec cols st hren hphys
    rw [seq_eq_of_ok _ _ hro]
    exact batchesThenSet_spec ddl _
  · rw [if_neg hsteps]
    obtain ⟨m1, _, m3⟩ := migLoop_ok cols ddl.migrationSteps env hren henv
      (ddl.version - current) current ddl.version st rfl hphys
    refine ⟨m1, ?_⟩
    show (migLoop cols ddl.migrationSteps env (ddl.version - current)
      current ddl.version st).st.regVer = ddl.version
    rw [m3, if_pos hlt]

lemma legacyPartA_spec (cols : Columns) (ddl : DDLOption) (st : DBState)
    (hren : renderOk cols = true) (hphys : st.phys.isSome = true) :
    (((if sameLayout (getExistingColumns st) cols then Outcome.pure st
       else rebuildOp cols st).seq fun st1 =>
      (if ddl.afterCreateTxn.isEmpty then Outcome.pure st1
       else runBatchTxn ddl.afterCreateTxn st1)).ok = true) ∧
    (((if sameLayout (getExistingColumns st) cols then Outcome.pure st
       else rebuildOp cols st).seq fun st1 =>
      (if ddl.afterCreateTxn.isEmpty then Outcome.pure st1
       else runBatchTxn ddl.afterCreateTxn st1)).st.phys.isSome = true) ∧
    (((if sameLayout (getExistingColumns st) cols then Outcome.pure st
       else rebuildOp cols st).seq fun st1 =>
      (if ddl.afterCreateTxn.isEmpty then Outcome.pure st1
       else runBatchTxn ddl.afterCreateTxn st1)).st.regVer = st.regVer) := by
  have hb1 : ∀ s : DBState,
      ((if ddl.afterCreateTxn.isEmpty then Outcome.pure s
        else runBatchTxn ddl.afterCreateTxn s).ok = true) ∧
      ((if ddl.afterCreateTxn.isEmpty then Outcome.pure s
        else runBatchTxn ddl.afterCreateTxn s).st = s) := by
    intro s
    by_cases h1 : ddl.afterCreateTxn.isEmpty = true
    · rw [if_pos h1]
      exact ⟨rfl, rfl⟩
    · rw [if_neg h1]
      exact ⟨rfl, rfl⟩
  by_cases hs : sameLayout (getExistingColumns st) cols = true
  · rw [if_pos hs, seq_eq_of_ok _ _ rfl]
    refine ⟨(hb1 st).1, ?_, ?_⟩
    · show (if ddl.afterCreateTxn.isEmpty then Outcome.pure st
        else runBatchTxn ddl.afterCreateTxn st).st.phys.isSome = true
      rw [(hb1 st).2]
      exact hphys
    · show (if ddl.afterCreateTxn.isEmpty then Outcome.pure st
        else runBatchTxn ddl.afterCreateTxn st).st.regVer = st.regVer
      rw [(hb1 st).2]
  · rw [if_neg hs]
    obtain ⟨hro, hrp, _⟩ := rebuildOp_spec cols st hren hphys
    rw [seq_eq_of_ok _ _ hro]
    refine ⟨(hb1 _).1, ?_, ?_⟩
    · show (if ddl.afterCreateTxn.isEmpty then Outcome.pure (rebuildOp cols st).st
        else runBatchTxn ddl.afterCreateTxn (rebuildOp cols st).st).st.phys.isSome = true
      rw [(hb1 _).2]
      exact hrp
    · show (if ddl.afterCreateTxn.isEmpty then Outcome.pure (rebuildOp cols st).st
        else runBatchTxn ddl.afterCreateTxn (rebuildOp cols st).st).st.regVer = st.regVer
      rw [(hb1 _).2]
      exact (noSet_rebuildOp cols st).2

/-- C1 (amended): in legacy adoption with an EMPTY after-create-no-transaction
batch, the legacy branch takes no early return; control falls through into
the migration block with the `current` variable still holding the version
read at entry (0), and — the target being at least 1 — that block rebuilds
(or runs the declared steps) and persists the target version.  So the
version IS persisted; the real asymmetry is that the after-create work is
duplicated by the fall-through, not that the table stays untracked. -/
theorem C1_legacy_empty_batch_persists
    (ctx : Ctx) (ddl : DDLOption) (env : Env) (st : DBState)
    (hddl : ctx.ddl = some ddl)
    (hempty : ddl.afterCreateNoTxn = [])
    (hreg : st.regVer = 0)
    (hlegacy : (getExistingColumns st).isEmpty = false)
    (htarget : 1 ≤ ddl.version)
    (hren : renderOk ctx.columns = true)
    (henv : ∀ u s2, stepFor ddl.migrationSteps u = some s2 →
      declaredStepFails env u s2 = false) :
    (reconcileSchema ctx env st).ok = true ∧
    (reconcileSchema ctx env st).st.regVer = ddl.version := by
  have hphys : st.phys.isSome = true := by
    unfold getExistingColumns at hlegacy
    cases hx : st.phys with
    | none =>
      rw [hx] at hlegacy
      simp at hlegacy
    | some t => rfl
  have hre : reconcileSchema ctx env st = managedPath ctx.columns ddl env st := by
    unfold reconcileSchema
    rw [hddl]
  rw [hre]
  unfold managedPath
  rw [if_pos hreg, if_neg (by simp [hlegacy])]
  unfold legacyAdoptPath
  have hempE : ddl.afterCreateNoTxn.isEmpty = true := by
    rw [hempty]
    rfl
  have hcont : ∀ s2 : DBState, s2.phys.isSome = true → s2.regVer = st.regVer →
      ((if ddl.afterCreateNoTxn.isEmpty then migrateBlock ctx.columns ddl env st.regVer s2
        else (runBatchNoTxn ddl.afterCreateNoTxn s2).seq fun st3 =>
          setVersionOp ddl.version st3).ok = true) ∧
      ((if ddl.afterCreateNoTxn.isEmpty then migrateBlock ctx.columns ddl env st.regVer s2
        else (runBatchNoTxn ddl.afterCreateNoTxn s2).seq fun st3 =>
          setVersionOp ddl.version st3).st.regVer = ddl.version) := by
    intro s2 h1 h2
    rw [if_pos hempE]
    exact migrateBlock_ok ctx.columns ddl env st.regVer s2 hren h1
      (by rw [h2]) (by rw [hreg]; omega) henv
  obtain ⟨hAok, hAphys, hAreg⟩ := legacyPartA_spec ctx.columns ddl st hren hphys
  rw [seq_eq_of_ok _ _ hAok]
  exact hcont _ hAphys hAreg

/-- Witness for the amended C1 at the concrete legacy-adoption instance of
`C1_counterexample`: the run succeeds and records the target version 1. -/
theorem C1_legacy_empty_batch_persists_witness :
    (reconcileSchema c1ctx envOk c1st).ok = true ∧
    (reconcileSchema c1ctx envOk c1st).st.regVer = c1ddl.version :=
  C1_legacy_empty_batch_persists c1ctx c1ddl envOk c1st rfl rfl rfl (by decide)
    (by decide) (by decide)
    (by
      intro u s2 h
      simp [stepFor, c1ddl] at h)

/-- C4: if any phase of the declared step targeting version `v` fails, the
Registry version is not set to `v`: the whole run reports failure to the
caller of open, the recorded version stays at `v - 1` (the last committed
version), and a later open under a recovered driver re-attempts exactly
that step starting from its pre-phase — the re-run's first event is the
first statement of step `v`'s pre-phase batch. -/
theorem C4_step_failure_not_persisted
    (ctx : Ctx) (ddl : DDLOption) (env env2 : Env) (st : DBState)
    (v : Nat) (fstep : MigrationStep)
    (hddl : ctx.ddl = some ddl)
    (hreg : 0 < st.regVer)
    (hv : st.regVer < v) (hvt : v ≤ ddl.version)
    (hstep : stepFor ddl.migrationSteps v = some fstep)
    (hren : renderOk ctx.columns = true)
    (hphys : st.phys.isSome = true)
    (hfail : declaredStepFails env v fstep = true)
    (hbelow : ∀ u s2, u < v → stepFor ddl.migrationSteps u = some s2 →
      declaredStepFails env u s2 = false)
    (hpre : fstep.preNoTxn ≠ [])
    (henv2 : ∀ u k, env2.failsAt u k = false) :
    (reconcileSchema ctx env st).ok = false ∧
    (reconcileSchema ctx env st).st.regVer = v - 1 ∧
    (reconcileSchema ctx env2 (reconcileSchema ctx env st).st).tr.head?
      = some (Ev.noTxnE (fstep.preNoTxn.headD "")) := by
  have hsteps_ne : ddl.migrationSteps.isEmpty = false :=
    stepFor_ne_nil ddl.migrationSteps v fstep hstep
  have hrw1 : reconcileSchema ctx env st
      = migrateWithSteps ctx.columns ddl.migrationSteps env st.regVer ddl.version st := by
    unfold reconcileSchema
    rw [hddl]
    show managedPath ctx.columns ddl env st = _
    unfold managedPath
    rw [if_neg (by omega)]
    unfold migrateBlock
    rw [if_pos (by omega), if_neg (by simp [hsteps_ne])]
  obtain ⟨hf1, hf2⟩ := migLoop_fail ctx.columns ddl.migrationSteps env hren v fstep
    hstep hfail hbelow (ddl.version - st.regVer) st.regVer ddl.version st rfl hphys rfl
    (by omega) hvt
  have hok1 : (reconcileSchema ctx env st).ok = false := by
    rw [hrw1]
    exact hf1
  have hreg1 : (reconcileSchema ctx env st).st.regVer = v - 1 := by
    rw [hrw1]
    exact hf2
  refine ⟨hok1, hreg1, ?_⟩
  set st1 := (reconcileSchema ctx env st).st with hst1
  have hrw2 : reconcileSchema ctx env2 st1
      = migrateWithSteps ctx.columns ddl.migrationSteps env2
          st1.regVer ddl.version st1 := by
    unfold reconcileSchema
    rw [hddl]
    show managedPath ctx.columns ddl env2 st1 = _
    unfold managedPath
    rw [if_neg (by rw [hreg1]; omega)]
    unfold migrateBlock
    rw [if_pos (by rw [hreg1]; omega), if_neg (by simp [hsteps_ne])]
  rw [hrw2]
  have hsucc : st1.regVer + 1 = v := by
    rw [hreg1]
    omega
  have hstep2 : stepFor ddl.migrationSteps (st1.regVer + 1) = some fstep := by
    rw [hsucc]
    exact hstep
  exact migLoop_tr_head ctx.columns ddl.migrationSteps env2
    (ddl.version - st1.regVer) st1.regVer ddl.version st1 fstep
    (by rw [hreg1]; omega) rfl hstep2 hpre (henv2 _ _)

/-- A two-step migration plan: step 2 is a plain txn batch, step 3 has a
pre-phase batch `["pre3"]` and a txn batch. -/
def c4step2 : MigrationStep := ⟨2, [], ["t2"], [], none, none⟩

def c4step3 : MigrationStep := ⟨3, ["pre3"], ["t3"], [], none, none⟩

def c4ddl : DDLOption := ⟨3, [], [], [], [], [c4step2, c4step3]⟩

def c4ctx : Ctx := ⟨[("a", ⟨ColumnType.text, true, none, false, none⟩)], some c4ddl⟩

/-- The table exists at registry version 2, so only step 3 remains. -/
def c4st : DBState := ⟨some ⟨["row_id", "a"], []⟩, 2⟩

/-- A driver that throws exactly inside the transactional phase of the step
targeting version 3. -/
def c4env : Env := ⟨fun u k => decide (u = 3 ∧ k = PhaseK.txnP)⟩

theorem C4_step_failure_not_persisted_witness :
    (reconcileSchema c4ctx c4env c4st).ok = false ∧
    (reconcileSchema c4ctx c4env c4st).st.regVer = 2 ∧
    (reconcileSchema c4ctx envOk (reconcileSchema c4ctx c4env c4st).st).tr.head?
      = some (Ev.noTxnE "pre3") :=
  C4_step_failure_not_persisted c4ctx c4ddl c4env envOk c4st 3 c4step3
    rfl (by decide) (by decide) (by decide) (by decide) (by decide) (by decide)
    (by decide)
    (by
      intro u s2 hu _
      have hk : ∀ k, c4env.failsAt u k = false := by
        intro k
        show decide (u = 3 ∧ k = PhaseK.txnP) = false
        rw [decide_eq_false_iff_not]
        rintro ⟨h1, -⟩
        omega
      unfold declaredStepFails
      simp [hk])
    (by decide) (fun _ _ => rfl)
